import Mathlib

/-!
Verification of the fidelipy driver (`src/fidelipy/__init__.py` and
`src/fidelipy/_strings.py`): a shallow embedding of the pure parsing
helpers and of the Selenium-driving methods of the `Driver` class,
together with theorems about the claims of the specification.

The browser, the user at the keyboard, and the page contents are
modelled by an abstract environment (`Env`): an oracle telling whether
the k-th browser primitive raises, which text the k-th primitive reads,
and the user's answer to the k-th `input()` prompt.  Methods are
translated into an exception-plus-state monad `DM` that records a
chronological trace of externally visible events.
-/

namespace Fidelipy

/-! ## Constants from `_strings.py` -/

def LOGIN_URL : String := "https://digital.fidelity.com/prgw/digital/login/full-page"

def LOGOUT_URL : String := "https://login.fidelity.com/ftgw/Fidelity/RtlCust/Logout/Init?AuthRedUrl=https://www.fidelity.com/customer-service/customer-logout"

def POSITIONS_URL : String := "https://oltx.fidelity.com/ftgw/fbc/oftop/portfolio#positions"

def TRADE_STOCK_URL : String := "https://digital.fidelity.com/ftgw/digital/trade-equity/index"

def TRADE_MUTUAL_FUND_URL : String := "https://digital.fidelity.com/ftgw/digital/trade-mutualfund"

def ACTION_MSG : String := "action must be Action.BUY or Action.SELL"

def UNIT_MSG : String := "unit must be Unit.SHARES or Unit.DOLLARS"

def DRIVER_TIMEOUT : String := "timeout must be positive"

def DRIVER_DELAY : String := "delay must be nonnegative"

def DRIVER_MARKETABLE_LIMIT_ORDER_BUFFER : String := "buffer must be nonnegative"

/-! ## Python exceptions

Every exception value that the embedded code can raise.  All of them are
subclasses of Python's `Exception`, hence caught by the
`except Exception` handlers at the method boundaries. -/

inductive PyErr where
  | valueError (msg : String)
  | runtimeError (msg : String)
  | invalidOperation
  | indexError
  | webDriver (k : Nat)
  deriving DecidableEq, Repr

/-! ## The decimal model

Python `decimal.Decimal` values as produced by this repository: a sign,
a coefficient and a (nonnegative) scale, the value being
`(-1)^sign * coeff / 10^scale`.  The default context has precision 28
and traps `InvalidOperation`; an operation whose resulting coefficient
would exceed 28 digits raises. -/

structure Dec where
  neg : Bool
  coeff : Nat
  scale : Nat
  deriving DecidableEq, Repr

/-- Numeric value of a decimal (Python `==` on `Decimal` compares values). -/
def Dec.val (d : Dec) : Rat :=
  (if d.neg then -1 else 1) * (d.coeff : Rat) / (10 : Rat) ^ d.scale

/-- Precision of Python's default decimal context. -/
def decPrec : Nat := 28

def digitChar : Nat → Char
  | 0 => '0'
  | 1 => '1'
  | 2 => '2'
  | 3 => '3'
  | 4 => '4'
  | 5 => '5'
  | 6 => '6'
  | 7 => '7'
  | 8 => '8'
  | _ => '9'

def digitVal? (c : Char) : Option Nat :=
  if 48 ≤ c.toNat ∧ c.toNat ≤ 57 then some (c.toNat - 48) else none

/-- Consume a maximal run of ASCII digits, returning their values and the rest. -/
def takeDigits : List Char → List Nat × List Char
  | [] => ([], [])
  | c :: cs =>
    match digitVal? c with
    | some d => let (ds, r) := takeDigits cs; (d :: ds, r)
    | none => ([], c :: cs)

/-- Value of a big-endian digit list. -/
def digitsVal (ds : List Nat) : Nat := ds.foldl (fun a d => a * 10 + d) 0

/-- Big-endian digits of `n`, by repeated division; the first argument
is fuel bounding the recursion depth. -/
def natDigitsAux : Nat → Nat → List Nat
  | 0, _ => []
  | fuel + 1, n => if n = 0 then [] else natDigitsAux fuel (n / 10) ++ [n % 10]

/-- Big-endian digit list of a natural number (`[0]` for zero). -/
def natDigitList (n : Nat) : List Nat :=
  if n = 0 then [0] else natDigitsAux n n

/-- Strip an optional leading sign, reporting whether it was `-`. -/
def splitSign (cs : List Char) : Bool × List Char :=
  match cs with
  | c :: t => if c = '-' then (true, t) else if c = '+' then (false, t) else (false, c :: t)
  | [] => (false, [])

/-- Parse the sign-digits-fraction form of a decimal numeric literal,
the subset of Python's `Decimal` constructor grammar that this
repository's strings exercise (no exponent part, no `NaN`/`Infinity`,
no surrounding whitespace, no underscores). -/
def parseDecCore (cs0 : List Char) : Option Dec :=
  let (sgn, cs1) := splitSign cs0
  let (d1, cs2) := takeDigits cs1
  match cs2 with
  | '.' :: t =>
    let (d2, r) := takeDigits t
    if r = [] ∧ d1 ++ d2 ≠ [] then
      some ⟨sgn, digitsVal (d1 ++ d2), d2.length⟩
    else
      none
  | [] => if d1 ≠ [] then some ⟨sgn, digitsVal d1, 0⟩ else none
  | _ => none

/-- Characters deleted by `_decimal`'s `str.translate` table. -/
def moneyJunk : List Char := ['$', ',', '%', '(', ')']

/-- `_decimal`: strip `$,%()` and run the `Decimal` constructor.  A
malformed literal raises `decimal.InvalidOperation`. -/
def _decimal (s : String) : Except PyErr Dec :=
  match parseDecCore (s.data.filter (fun c => ¬ c ∈ moneyJunk)) with
  | some d => .ok d
  | none => .error .invalidOperation

/-- `Decimal.quantize(Decimal("0.01"), ROUND_DOWN)` followed by `* 100`
and `int(...)`, collapsed to its exact integer result: the coefficient of
the quantized value (rounding toward zero), with the 28-digit precision
check of the default context applied to the quantize step.  The final
`* 100` and `int()` are exact because the two dropped digits are zeros. -/
def quantCents (d : Dec) : Except PyErr Int :=
  let q : Nat :=
    if d.scale ≤ 2 then d.coeff * 10 ^ (2 - d.scale) else d.coeff / 10 ^ (d.scale - 2)
  if 10 ^ decPrec ≤ q then .error .invalidOperation
  else .ok (if d.neg then -(q : Int) else (q : Int))

/-- `_cents`: dollar string to integer cents. -/
def _cents (s : String) : Except PyErr Int :=
  match _decimal s with
  | .error e => .error e
  | .ok d => quantCents d

/-- The fixed-point rendering `str(Decimal(cents).quantize(Decimal("0.01")) / 100)`
produces: sign, integer digits, point, exactly two fraction digits. -/
def formatCents (c : Int) : String :=
  let a := c.natAbs
  ⟨(if c < 0 then ['-'] else []) ++ (natDigitList (a / 100)).map digitChar
      ++ '.' :: [digitChar (a % 100 / 10), digitChar (a % 100 % 10)]⟩

/-- `_dollars`: integer cents to dollar string.  `Decimal(cents).quantize(Decimal("0.01"))`
raises `InvalidOperation` when the resulting coefficient `|cents| * 100`
exceeds the default context's 28 digits; the subsequent division by 100 is
exact. -/
def _dollars (c : Int) : Except PyErr String :=
  if 10 ^ decPrec ≤ c.natAbs * 100 then .error .invalidOperation
  else .ok (formatCents c)

/-- `_int`: drop commas, then Python `int(...)` on a sign-digits literal. -/
def parseIntCore (cs0 : List Char) : Option Int :=
  let (sgn, cs1) := splitSign cs0
  let (ds, r) := takeDigits cs1
  if r = [] ∧ ds ≠ [] then
    some (if sgn then -(digitsVal ds : Int) else (digitsVal ds : Int))
  else
    none

def _int (s : String) : Except PyErr Int :=
  match parseIntCore (s.data.filter (fun c => c ≠ ',')) with
  | some n => .ok n
  | none => .error (.valueError "invalid literal for int() with base 10")

/-! ## Data model: `Quote`, `Action`, `Unit`

`Quote` is a frozen dataclass; its generated `__eq__` compares the
fields with `==`, which on `Decimal` is numeric equality, so the money
fields are carried as their numeric values. -/

structure Quote where
  symbol : String
  name : String
  last_price : Rat
  dollar_change : Rat
  percent_change : Rat
  bid : Rat
  bid_size : Int
  ask : Rat
  ask_size : Int
  volume : Int
  deriving DecidableEq, Repr

inductive Action where
  | BUY
  | SELL
  deriving DecidableEq, BEq, Repr

inductive Unit where
  | SHARES
  | DOLLARS
  deriving DecidableEq, BEq, Repr

/-! ## The driver monad

`Env` is the oracle for everything outside the program: whether the k-th
browser primitive raises, which innerText the k-th primitive scrapes,
and what the user types at the k-th `input()` prompt.  `St` carries the
primitive counter, the prompt counter and the chronological event
trace. -/

inductive Event where
  | navigate (url : String)
  | click (selector : String)
  | clickText (label : String)
  | clearField (id : String)
  | sendKeys (id text : String)
  | readText (selector : String) (value : String)
  | readList (selector : String) (values : List String)
  | prompted (prompt response : String)
  | logged (msg : String)
  | slept
  | quitBrowser
  deriving DecidableEq, Repr

structure Env where
  fails : Nat → Bool
  text : Nat → String
  texts : Nat → List String
  answer : Nat → String

structure St where
  k : Nat
  p : Nat
  trace : List Event
  deriving Repr

def St.push (st : St) (e : Event) : St := { st with trace := st.trace ++ [e] }

/-- The initial state: no primitive run, no prompt asked, empty trace. -/
def st0 : St := ⟨0, 0, []⟩

def DM (α : Type) : Type := Env → St → Except PyErr α × St

def DM.pure (a : α) : DM α := fun _ st => (.ok a, st)

def DM.bind (x : DM α) (f : α → DM β) : DM β := fun env st =>
  match x env st with
  | (.ok a, st1) => f a env st1
  | (.error e, st1) => (.error e, st1)

instance : Monad DM where
  pure := DM.pure
  bind := DM.bind

/-- Raise a Python exception; the state is untouched. -/
def raiseErr (e : PyErr) : DM α := fun _ st => (.error e, st)

/-- Lift a pure fallible computation (parsing, indexing) into the monad. -/
def liftE (x : Except PyErr α) : DM α := fun _ st => (x, st)

/-- `driver.get(url)`. -/
def navigate (url : String) : DM PUnit := fun env st =>
  if env.fails st.k then (.error (.webDriver st.k), { st with k := st.k + 1 })
  else (.ok ⟨⟩, { st with k := st.k + 1, trace := st.trace ++ [.navigate url] })

/-- Locate an element by CSS selector / class name / id and click it. -/
def clickSel (selector : String) : DM PUnit := fun env st =>
  if env.fails st.k then (.error (.webDriver st.k), { st with k := st.k + 1 })
  else (.ok ⟨⟩, { st with k := st.k + 1, trace := st.trace ++ [.click selector] })

/-- Click an element that was located by scanning the texts of a list. -/
def clickText (label : String) : DM PUnit := fun env st =>
  if env.fails st.k then (.error (.webDriver st.k), { st with k := st.k + 1 })
  else (.ok ⟨⟩, { st with k := st.k + 1, trace := st.trace ++ [.clickText label] })

/-- Locate an input element and `clear()` it. -/
def fieldClear (id : String) : DM PUnit := fun env st =>
  if env.fails st.k then (.error (.webDriver st.k), { st with k := st.k + 1 })
  else (.ok ⟨⟩, { st with k := st.k + 1, trace := st.trace ++ [.clearField id] })

/-- `send_keys` on an input element. -/
def fieldKeys (id text : String) : DM PUnit := fun env st =>
  if env.fails st.k then (.error (.webDriver st.k), { st with k := st.k + 1 })
  else (.ok ⟨⟩, { st with k := st.k + 1, trace := st.trace ++ [.sendKeys id text] })

/-- Locate an element and scrape its stripped innerText. -/
def readText (selector : String) : DM String := fun env st =>
  if env.fails st.k then (.error (.webDriver st.k), { st with k := st.k + 1 })
  else (.ok (env.text st.k),
    { st with k := st.k + 1, trace := st.trace ++ [.readText selector (env.text st.k)] })

/-- `find_elements` plus per-element innerText scraping. -/
def readTexts (selector : String) : DM (List String) := fun env st =>
  if env.fails st.k then (.error (.webDriver st.k), { st with k := st.k + 1 })
  else (.ok (env.texts st.k),
    { st with k := st.k + 1, trace := st.trace ++ [.readList selector (env.texts st.k)] })

/-- `driver.quit()`. -/
def quitB : DM PUnit := fun env st =>
  if env.fails st.k then (.error (.webDriver st.k), { st with k := st.k + 1 })
  else (.ok ⟨⟩, { st with k := st.k + 1, trace := st.trace ++ [.quitBrowser] })

/-- `time.sleep(self.__delay)`. -/
def sleepD : DM PUnit := fun _ st => (.ok ⟨⟩, st.push .slept)

/-- `self.__logger.exception(msg)`. -/
def logMsg (msg : String) : DM PUnit := fun _ st => (.ok ⟨⟩, st.push (.logged msg))

/-- `input(prompt)`: returns the user's next answer. -/
def promptUser (prompt : String) : DM String := fun env st =>
  (.ok (env.answer st.p),
    { st with p := st.p + 1, trace := st.trace ++ [.prompted prompt (env.answer st.p)] })

/-- `not response or response.lower() == "y"`. -/
def accepts (response : String) : Bool :=
  response.isEmpty || response.toLower == "y"

def YN_SUFFIX : String := " [Y/n] "

/-- `_confirm(prompt)`. -/
def _confirm (prompt : String) : DM Bool := do
  let r ← promptUser (prompt ++ YN_SUFFIX)
  pure (accepts r)

/-- `try: ... except Exception: log; return False` around an order body. -/
def guarded (msg : String) (body : DM Bool) : DM Bool := fun env st =>
  match body env st with
  | (.ok b, st1) => (.ok b, st1)
  | (.error _, st1) => (.ok false, st1.push (.logged msg))

/-- `try: ... except Exception: log; raise` around a read body. -/
def reraise (msg : String) (body : DM α) : DM α := fun env st =>
  match body env st with
  | (.ok a, st1) => (.ok a, st1)
  | (.error e, st1) => (.error e, st1.push (.logged msg))

/-! ## Selector and id constants used by the `Driver` methods -/

def KEY_RETURN : String := "\uE006"

def SYMBOL_ID : String := "eq-ticket-dest-symbol"

def MF_SYMBOL_ID : String := "mf-ticket-dest-symbol-Symbol"

def MF_BUY_SYMBOL_ID : String := "mf-ticket-dest-symbol-Fund to Buy"

def ACTION_BUY_SEL : String := "label[for=\"action-buy\"]"

def ACTION_SELL_SEL : String := "label[for=\"action-sell\"]"

def MF_DROPDOWN_BUTTON_SEL : String := "mf-ticket__action-dropdown mf-dropdownlist-button"

def DROPDOWN_ITEMS_SEL : String := "dropdownlist_items dropdownlist_items--item"

def BUY_TEXT : String := "Buy"

def SELL_TEXT : String := "Sell"

def EXCHANGE_TEXT : String := "Exchange"

def UNIT_SHARES_SEL : String := "label[for=\"quantity-type-shares\"]"

def UNIT_DOLLARS_SEL : String := "label[for=\"quantity-type-dollars\"]"

def MF_UNIT_SHARES_SEL : String := "label[for=\"action-shares\"]"

def MF_UNIT_DOLLARS_SEL : String := "label[for=\"action-dollar\"]"

def QUANTITY_ID : String := "eqt-shared-quantity"

def MF_QUANTITY_ID : String := "mf-shared-quantity"

def MARKET_YES_SEL : String := "label[for=\"market-yes\"]"

def MARKET_NO_SEL : String := "label[for=\"market-no\"]"

def LIMIT_FIELD_ID : String := "eqt-ordsel-limit-price-field"

def GTC_SEL : String := "label[for=\"action-gtc\"]"

def PREVIEW_BTN : String := "previewOrderBtn"

def PLACE_BTN : String := "placeOrderBtn"

def FUNDS_CASH_SEL : String := "funds-cash"

def COMPANY_TITLE_SEL : String := "company-title"

def LAST_PRICE_SEL : String := "last-price"

def CHG_SEL : String := "eq-ticket__quote--company-symbol--pricing eq-ticket__symbol__dollar_percent_chg_font"

def BLOCKS_PRICE_SEL : String := "eq-ticket__quote--blocks-container block-price-layout"

def NUMBER_SEL : String := "eq-ticket__quote--blocks-container number"

def BLOCK_VOLUME_SEL : String := "block-volume"

def DOWNLOAD_SEL : String := "button[title=\"Download\"]"

def PLACE_PROMPT : String := "Place order"

def SUCCESS_PROMPT : String := "Success"

def MARKET_ORDER_FAILED : String := "market order failed"

def LIMIT_ORDER_FAILED : String := "limit order failed"

def MARKETABLE_LIMIT_ORDER_FAILED : String := "marketable limit order failed"

def GTC_ORDER_FAILED : String := "good-til-canceled order failed"

def BUY_MF_FAILED : String := "mutual fund buy order failed"

def SELL_MF_FAILED : String := "mutual fund sell order failed"

def EXCHANGE_MF_FAILED : String := "mutual fund exchange order failed"

def CASH_FAILED : String := "cash available to trade cannot be found"

def QUOTE_FAILED : String := "quote information cannot be found"

def POSITIONS_FAILED : String := "positions cannot be downloaded"

def BID_ASK_FAILED : String := "failed to get bid ask"

/-! ## Validation helpers and private `Driver` helpers -/

def _validate_action (action : Action) : DM PUnit :=
  if action = .BUY ∨ action = .SELL then DM.pure ⟨⟩
  else raiseErr (.valueError ACTION_MSG)

def _validate_unit (unit : Unit) : DM PUnit :=
  if unit = .SHARES ∨ unit = .DOLLARS then DM.pure ⟨⟩
  else raiseErr (.valueError UNIT_MSG)

def stock_set_account (account : String) : DM PUnit :=
  navigate (TRADE_STOCK_URL ++ "?ACCOUNT=" ++ account)

def mutual_fund_set_account (account : String) : DM PUnit :=
  navigate (TRADE_MUTUAL_FUND_URL ++ "?ACCOUNT=" ++ account)

def set_symbol (id symbol : String) : DM PUnit := do
  fieldClear id
  fieldKeys id symbol
  fieldKeys id KEY_RETURN

def stock_set_symbol (symbol : String) : DM PUnit := set_symbol SYMBOL_ID symbol

def mutual_fund_set_symbol (symbol : String) : DM PUnit := set_symbol MF_SYMBOL_ID symbol

def mutual_fund_set_buy_symbol (symbol : String) : DM PUnit :=
  set_symbol MF_BUY_SYMBOL_ID symbol

def stock_set_action (action : Action) : DM PUnit :=
  match action with
  | .BUY => clickSel ACTION_BUY_SEL
  | .SELL => clickSel ACTION_SELL_SEL

/-- `__mutual_fund_set_action`: open the dropdown, read the item labels,
wait, click the first item matching the requested action (`none` stands
for the `Exchange` item), wait again. -/
def mutual_fund_set_action (action : Option Action) : DM PUnit := do
  clickSel MF_DROPDOWN_BUTTON_SEL
  let items ← readTexts DROPDOWN_ITEMS_SEL
  sleepD
  match items.find? (fun s =>
      (s == BUY_TEXT && action == some .BUY)
      || (s == SELL_TEXT && action == some .SELL)
      || (s == EXCHANGE_TEXT && action.isNone)) with
  | some s => clickText s
  | none => DM.pure ⟨⟩
  sleepD

def stock_set_unit (unit : Unit) : DM PUnit :=
  match unit with
  | .SHARES => clickSel UNIT_SHARES_SEL
  | .DOLLARS => clickSel UNIT_DOLLARS_SEL

def mutual_fund_set_unit (unit : Unit) : DM PUnit :=
  match unit with
  | .SHARES => clickSel MF_UNIT_SHARES_SEL
  | .DOLLARS => clickSel MF_UNIT_DOLLARS_SEL

def set_quantity (id quantity : String) : DM PUnit := do
  fieldClear id
  fieldKeys id quantity

def stock_set_quantity (quantity : String) : DM PUnit := set_quantity QUANTITY_ID quantity

def mutual_fund_set_quantity (quantity : String) : DM PUnit :=
  set_quantity MF_QUANTITY_ID quantity

def stock_set_market : DM PUnit := clickSel MARKET_YES_SEL

def stock_set_limit (limit : String) : DM PUnit := do
  clickSel MARKET_NO_SEL
  fieldClear LIMIT_FIELD_ID
  fieldKeys LIMIT_FIELD_ID limit

def stock_set_gtc : DM PUnit := clickSel GTC_SEL

/-- Left-to-right conversion of the scraped number texts, propagating
the first parse exception (`tuple(_cents(...) for ...)`). -/
def mapCents : List String → Except PyErr (List Int)
  | [] => .ok []
  | s :: ss =>
    match _cents s with
    | .error e => .error e
    | .ok c =>
      match mapCents ss with
      | .error e => .error e
      | .ok cs => .ok (c :: cs)

/-- Python `str.split("x")`: split on each occurrence of the
single-character separator, keeping empty parts. -/
def splitChar (sep : Char) (cs : List Char) : List (List Char) :=
  cs.foldr
    (fun c acc =>
      match acc with
      | [] => [[c]]
      | g :: gs => if c = sep then [] :: g :: gs else (c :: g) :: gs)
    [[]]

def pySplitX (s : String) : List String := (splitChar 'x' s.data).map (fun g => ⟨g⟩)

/-- Python list indexing: `IndexError` when out of range. -/
def indexE (l : List α) (i : Nat) : Except PyErr α :=
  match l.get? i with
  | some a => .ok a
  | none => .error .indexError

/-- `__stock_bid_ask`: scrape the `number` elements, convert each to
cents, and require exactly two of them. -/
def stock_bid_ask : DM (Int × Int) := do
  let ss ← readTexts NUMBER_SEL
  let cs ← liftE (mapCents ss)
  match cs with
  | [b, a] => DM.pure (b, a)
  | _ => raiseErr (.runtimeError BID_ASK_FAILED)

def click_preview_order : DM PUnit := do
  sleepD
  clickSel PREVIEW_BTN

def click_place_order : DM PUnit := clickSel PLACE_BTN

/-- `__place_order`: preview, confirm, place, confirm. -/
def place_order : DM Bool := do
  click_preview_order
  let c ← _confirm PLACE_PROMPT
  if c then do
    click_place_order
    _confirm SUCCESS_PROMPT
  else
    DM.pure false

/-! ## Read operations -/

def cash_available_to_trade_body (account : String) : DM Dec := do
  stock_set_account account
  let s ← readText FUNDS_CASH_SEL
  liftE (_decimal s)

def cash_available_to_trade (account : String) : DM Dec :=
  reraise CASH_FAILED (cash_available_to_trade_body account)

/-- The try-block of `Driver.quote`, step for step: navigate, enter the
symbol, scrape and parse each quote component, build the `Quote`. -/
def quote_body (symbol : String) : DM Quote := do
  navigate TRADE_STOCK_URL
  stock_set_symbol symbol
  let name ← readText COMPANY_TITLE_SEL
  let lastS ← readText LAST_PRICE_SEL
  let last ← liftE (_decimal lastS)
  let chg ← readTexts CHG_SEL
  let c0 ← liftE (indexE chg 0)
  let dollar ← liftE (_decimal c0)
  let c1 ← liftE (indexE chg 1)
  let percent ← liftE (_decimal c1)
  let blocks ← readTexts BLOCKS_PRICE_SEL
  let b0 ← liftE (indexE blocks 0)
  let parts0 := pySplitX b0
  let p00 ← liftE (indexE parts0 0)
  let bid ← liftE (_decimal p00)
  let p01 ← liftE (indexE parts0 1)
  let bidSize ← liftE (_int p01)
  let b1 ← liftE (indexE blocks 1)
  let parts1 := pySplitX b1
  let p10 ← liftE (indexE parts1 0)
  let ask ← liftE (_decimal p10)
  let p11 ← liftE (indexE parts1 1)
  let askSize ← liftE (_int p11)
  let volS ← readText BLOCK_VOLUME_SEL
  let volume ← liftE (_int volS)
  DM.pure ⟨symbol, name, last.val, dollar.val, percent.val, bid.val, bidSize,
    ask.val, askSize, volume⟩

def quote (symbol : String) : DM Quote :=
  reraise QUOTE_FAILED (quote_body symbol)

def download_positions_body : DM PUnit := do
  navigate POSITIONS_URL
  clickSel DOWNLOAD_SEL

def download_positions : DM PUnit :=
  reraise POSITIONS_FAILED download_positions_body

/-! ## Order placements

Each method is: argument validation (outside the try-block), then the
try-block, which sets the order fields and runs the common
`__place_order` sequence, converting any exception to `False` after
logging. -/

def market_order_setup (account symbol : String) (action : Action) (unit : Unit)
    (quantity : String) : DM PUnit := do
  stock_set_account account
  stock_set_symbol symbol
  stock_set_action action
  stock_set_unit unit
  stock_set_quantity quantity
  stock_set_market

def market_order (account symbol : String) (action : Action) (unit : Unit)
    (quantity : String) : DM Bool := do
  _validate_action action
  _validate_unit unit
  guarded MARKET_ORDER_FAILED
    (DM.bind (market_order_setup account symbol action unit quantity)
      (fun _ => place_order))

def limit_order_setup (account symbol : String) (action : Action) (unit : Unit)
    (quantity limit : String) : DM PUnit := do
  stock_set_account account
  stock_set_symbol symbol
  stock_set_action action
  stock_set_unit unit
  stock_set_quantity quantity
  stock_set_limit limit

def limit_order (account symbol : String) (action : Action) (unit : Unit)
    (quantity limit : String) : DM Bool := do
  _validate_action action
  _validate_unit unit
  guarded LIMIT_ORDER_FAILED
    (DM.bind (limit_order_setup account symbol action unit quantity limit)
      (fun _ => place_order))

/-- The limit price of a marketable limit order: ask plus buffer when
buying, bid minus buffer when selling, in cents, rendered by `_dollars`. -/
def marketable_limit (action : Action) (bid ask buffer : Int) : Except PyErr String :=
  match action with
  | .BUY => _dollars (ask + buffer)
  | .SELL => _dollars (bid - buffer)

def marketable_limit_order_setup (account symbol : String) (action : Action)
    (unit : Unit) (quantity : String) (buffer : Int) : DM PUnit := do
  stock_set_account account
  stock_set_symbol symbol
  stock_set_action action
  stock_set_unit unit
  stock_set_quantity quantity
  let ba ← stock_bid_ask
  let limit ← liftE (marketable_limit action ba.1 ba.2 buffer)
  stock_set_limit limit

def marketable_limit_order (account symbol : String) (action : Action) (unit : Unit)
    (quantity : String) (buffer : Int) : DM Bool := do
  _validate_action action
  _validate_unit unit
  if buffer < 0 then
    raiseErr (.valueError DRIVER_MARKETABLE_LIMIT_ORDER_BUFFER)
  else
    guarded MARKETABLE_LIMIT_ORDER_FAILED
      (DM.bind (marketable_limit_order_setup account symbol action unit quantity buffer)
        (fun _ => place_order))

def gtc_order_setup (account symbol : String) (action : Action)
    (shares limit : String) : DM PUnit := do
  stock_set_account account
  stock_set_symbol symbol
  stock_set_action action
  stock_set_unit .SHARES
  stock_set_quantity shares
  stock_set_limit limit
  stock_set_gtc

def gtc_order (account symbol : String) (action : Action)
    (shares limit : String) : DM Bool := do
  _validate_action action
  guarded GTC_ORDER_FAILED
    (DM.bind (gtc_order_setup account symbol action shares limit)
      (fun _ => place_order))

def buy_mutual_fund_setup (account symbol dollars : String) : DM PUnit := do
  mutual_fund_set_account account
  mutual_fund_set_symbol symbol
  mutual_fund_set_action (some .BUY)
  mutual_fund_set_quantity dollars

def buy_mutual_fund (account symbol dollars : String) : DM Bool :=
  guarded BUY_MF_FAILED
    (DM.bind (buy_mutual_fund_setup account symbol dollars)
      (fun _ => place_order))

def sell_mutual_fund_setup (account symbol : String) (unit : Unit)
    (quantity : String) : DM PUnit := do
  mutual_fund_set_account account
  mutual_fund_set_symbol symbol
  mutual_fund_set_action (some .SELL)
  mutual_fund_set_unit unit
  mutual_fund_set_quantity quantity

def sell_mutual_fund (account symbol : String) (unit : Unit)
    (quantity : String) : DM Bool := do
  _validate_unit unit
  guarded SELL_MF_FAILED
    (DM.bind (sell_mutual_fund_setup account symbol unit quantity)
      (fun _ => place_order))

def exchange_mutual_fund_setup (account sell_symbol : String) (unit : Unit)
    (quantity buy_symbol : String) : DM PUnit := do
  mutual_fund_set_account account
  mutual_fund_set_symbol sell_symbol
  mutual_fund_set_action none
  mutual_fund_set_unit unit
  mutual_fund_set_quantity quantity
  mutual_fund_set_buy_symbol buy_symbol

def exchange_mutual_fund (account sell_symbol : String) (unit : Unit)
    (quantity buy_symbol : String) : DM Bool := do
  _validate_unit unit
  guarded EXCHANGE_MF_FAILED
    (DM.bind (exchange_mutual_fund_setup account sell_symbol unit quantity buy_symbol)
      (fun _ => place_order))

/-! ## Constructor and session scope -/

structure DriverCfg where
  timeout : Int
  delay : Rat
  deriving DecidableEq, Repr

/-- `Driver.__init__`: store the fields, then validate `timeout`, then
`delay`.  Purely local: no browser interaction. -/
def driver_init (timeout : Int) (delay : Rat) : Except PyErr DriverCfg :=
  if timeout ≤ 0 then .error (.valueError DRIVER_TIMEOUT)
  else if delay < 0 then .error (.valueError DRIVER_DELAY)
  else .ok ⟨timeout, delay⟩

/-- `Driver.__enter__`: get the login page (and return the driver itself). -/
def enterDriver : DM PUnit := navigate LOGIN_URL

/-- `Driver.__exit__`: get the logout URL, then quit the browser. -/
def exitDriver : DM PUnit := do
  navigate LOGOUT_URL
  quitB

/-! ## The order-placement surface of `Driver` -/

inductive OrderMethodName where
  | market_order
  | limit_order
  | marketable_limit_order
  | gtc_order
  | buy_mutual_fund
  | sell_mutual_fund
  | exchange_mutual_fund
  deriving DecidableEq, Repr

def orderMethodNames : List OrderMethodName :=
  [.market_order, .limit_order, .marketable_limit_order, .gtc_order,
   .buy_mutual_fund, .sell_mutual_fund, .exchange_mutual_fund]

/-- One invocation of an order-placement method, with its arguments. -/
inductive OrderCall where
  | market (account symbol : String) (action : Action) (unit : Unit) (quantity : String)
  | limit (account symbol : String) (action : Action) (unit : Unit) (quantity limitPrice : String)
  | marketableLimit (account symbol : String) (action : Action) (unit : Unit)
      (quantity : String) (buffer : Int)
  | gtc (account symbol : String) (action : Action) (shares limitPrice : String)
  | buyMF (account symbol dollars : String)
  | sellMF (account symbol : String) (unit : Unit) (quantity : String)
  | exchangeMF (account sell_symbol : String) (unit : Unit) (quantity buy_symbol : String)

def OrderCall.methodName : OrderCall → OrderMethodName
  | .market .. => .market_order
  | .limit .. => .limit_order
  | .marketableLimit .. => .marketable_limit_order
  | .gtc .. => .gtc_order
  | .buyMF .. => .buy_mutual_fund
  | .sellMF .. => .sell_mutual_fund
  | .exchangeMF .. => .exchange_mutual_fund

def dispatch : OrderCall → DM Bool
  | .market account symbol action unit quantity =>
    market_order account symbol action unit quantity
  | .limit account symbol action unit quantity limitPrice =>
    limit_order account symbol action unit quantity limitPrice
  | .marketableLimit account symbol action unit quantity buffer =>
    marketable_limit_order account symbol action unit quantity buffer
  | .gtc account symbol action shares limitPrice =>
    gtc_order account symbol action shares limitPrice
  | .buyMF account symbol dollars =>
    buy_mutual_fund account symbol dollars
  | .sellMF account symbol unit quantity =>
    sell_mutual_fund account symbol unit quantity
  | .exchangeMF account sell_symbol unit quantity buy_symbol =>
    exchange_mutual_fund account sell_symbol unit quantity buy_symbol

/-- The field-setting prefix of each order-placement method. -/
def setupOfCall : OrderCall → DM PUnit
  | .market account symbol action unit quantity =>
    market_order_setup account symbol action unit quantity
  | .limit account symbol action unit quantity limitPrice =>
    limit_order_setup account symbol action unit quantity limitPrice
  | .marketableLimit account symbol action unit quantity buffer =>
    marketable_limit_order_setup account symbol action unit quantity buffer
  | .gtc account symbol action shares limitPrice =>
    gtc_order_setup account symbol action shares limitPrice
  | .buyMF account symbol dollars =>
    buy_mutual_fund_setup account symbol dollars
  | .sellMF account symbol unit quantity =>
    sell_mutual_fund_setup account symbol unit quantity
  | .exchangeMF account sell_symbol unit quantity buy_symbol =>
    exchange_mutual_fund_setup account sell_symbol unit quantity buy_symbol

def msgOfCall : OrderCall → String
  | .market .. => MARKET_ORDER_FAILED
  | .limit .. => LIMIT_ORDER_FAILED
  | .marketableLimit .. => MARKETABLE_LIMIT_ORDER_FAILED
  | .gtc .. => GTC_ORDER_FAILED
  | .buyMF .. => BUY_MF_FAILED
  | .sellMF .. => SELL_MF_FAILED
  | .exchangeMF .. => EXCHANGE_MF_FAILED

/-- The arguments pass the validations run before the try-block. -/
def OrderCall.valid : OrderCall → Prop
  | .marketableLimit _ _ _ _ _ buffer => 0 ≤ buffer
  | _ => True

/-- The try-block of an order-placement method: its field-setting prefix
followed by the common `__place_order` sequence. -/
def bodyOfCall (c : OrderCall) : DM Bool :=
  DM.bind (setupOfCall c) (fun _ => place_order)

/-! ## Trace properties -/

def PLACE_PROMPT_FULL : String := PLACE_PROMPT ++ YN_SUFFIX

def SUCCESS_PROMPT_FULL : String := SUCCESS_PROMPT ++ YN_SUFFIX

/-- The five events emitted by a fully successful `__place_order` run. -/
def successTail (r0 r1 : String) : List Event :=
  [.slept, .click PREVIEW_BTN, .prompted PLACE_PROMPT_FULL r0,
   .click PLACE_BTN, .prompted SUCCESS_PROMPT_FULL r1]

/-- Events that a field-setting step may emit: no prompt, no log, no
click of the preview or place buttons. -/
def SafeEv : Event → Prop
  | .click sel => sel ≠ PREVIEW_BTN ∧ sel ≠ PLACE_BTN
  | .prompted _ _ => False
  | .logged _ => False
  | _ => True

/-- A computation that only appends `SafeEv` events and asks no prompt. -/
def SafeA (x : DM α) : Prop :=
  ∀ env st, ∃ K xs, (x env st).2 = ⟨K, st.p, st.trace ++ xs⟩ ∧ ∀ e ∈ xs, SafeEv e

/-- A computation that appends events but never types into the limit
price field. -/
def AddsNoLimitKeys (x : DM α) : Prop :=
  ∀ env st, ∃ xs, (x env st).2.trace = st.trace ++ xs ∧
    ∀ t, Event.sendKeys LIMIT_FIELD_ID t ∉ xs

/-- Every click of the place-order button is preceded by a click of the
preview-order button and by an accepted `Place order` prompt. -/
def placeGated (tr : List Event) : Prop :=
  ∀ k, tr.get? k = some (.click PLACE_BTN) →
    (∃ i < k, tr.get? i = some (.click PREVIEW_BTN)) ∧
    (∃ j < k, ∃ r, tr.get? j = some (.prompted PLACE_PROMPT_FULL r) ∧ accepts r = true)

/-- The two-prompt gating contract of one order-placement run. -/
def gatedRun (out : Except PyErr Bool × St) : Prop :=
  placeGated out.2.trace ∧
  (∀ r, Event.prompted PLACE_PROMPT_FULL r ∈ out.2.trace → accepts r = false →
    out.1 = .ok false ∧ Event.click PLACE_BTN ∉ out.2.trace) ∧
  (out.1 = .ok true →
    ∃ t r0 r1, out.2.trace = t ++ successTail r0 r1 ∧
      accepts r0 = true ∧ accepts r1 = true)

/-- The success contract of one order-placement run: `True` exactly when
preview was clicked, the first prompt accepted, the place button clicked
and the second prompt accepted; a boolean in every case. -/
def successIff (out : Except PyErr Bool × St) : Prop :=
  (out.1 = .ok true ↔
    ∃ t r0 r1, out.2.trace = t ++ successTail r0 r1 ∧
      accepts r0 = true ∧ accepts r1 = true) ∧
  (out.1 = .ok true ∨ out.1 = .ok false)

/-- The catch-all boundary contract of an order placement: the method
returns a boolean, and when its try-block raises, the method logs the
failure and returns `False` with no further effect. -/
def boundaryCaught (msg : String) (body method : DM Bool) : Prop :=
  ∀ env st, (∃ b st1, method env st = (.ok b, st1)) ∧
    (∀ e st1, body env st = (.error e, st1) →
      method env st = (.ok false, st1.push (.logged msg)))

/-- The re-raise boundary contract of a read operation: the wrapped
method returns exactly the body's outcome (value or error), and on error
appends one log event. -/
def reraisePassthrough (msg : String) (body method : DM α) : Prop :=
  ∀ env st, (method env st).1 = (body env st).1 ∧
    (∀ a st1, body env st = (.ok a, st1) → method env st = (.ok a, st1)) ∧
    (∀ e st1, body env st = (.error e, st1) →
      method env st = (.error e, st1.push (.logged msg)))

/-- The pure parsing pipeline of `Driver.quote`, on the five scraped
page texts, in source order. -/
def quoteOfPage (symbol name lastS : String) (chg blocks : List String)
    (volS : String) : Except PyErr Quote := do
  let last ← _decimal lastS
  let c0 ← indexE chg 0
  let dollar ← _decimal c0
  let c1 ← indexE chg 1
  let percent ← _decimal c1
  let b0 ← indexE blocks 0
  let p00 ← indexE (pySplitX b0) 0
  let bid ← _decimal p00
  let p01 ← indexE (pySplitX b0) 1
  let bidSize ← _int p01
  let b1 ← indexE blocks 1
  let p10 ← indexE (pySplitX b1) 0
  let ask ← _decimal p10
  let p11 ← indexE (pySplitX b1) 1
  let askSize ← _int p11
  let volume ← _int volS
  pure ⟨symbol, name, last.val, dollar.val, percent.val, bid.val, bidSize,
    ask.val, askSize, volume⟩

/-! ## Concrete environments for witnesses -/

/-- Every browser step succeeds; every prompt is answered with the empty
string (an acceptance); the page shows `1.00` / `2.00` style numbers. -/
def env0 : Env :=
  ⟨fun _ => false, fun _ => "1.00", fun _ => ["1.00", "2.00"], fun _ => ""⟩

/-- Like `env0` but the user declines every prompt with `n`. -/
def envNo : Env :=
  ⟨fun _ => false, fun _ => "1.00", fun _ => ["1.00", "2.00"], fun _ => "n"⟩

/-- Every browser step raises. -/
def envFail : Env :=
  ⟨fun _ => true, fun _ => "", fun _ => [], fun _ => ""⟩

/-- A quote page: company title at read 4, last price at read 5, the
dollar/percent change pair at read 6, the bid/ask blocks at read 7, the
volume at read 8. -/
def envQ : Env :=
  ⟨fun _ => false,
   fun k => if k = 4 then "ACME CORP" else if k = 5 then "$12.34" else "1,234",
   fun k => if k = 6 then ["+0.05", "(+0.41%)"] else ["12.30x100", "12.40x200"],
   fun _ => ""⟩

/-- The quote scraped from `envQ` for symbol `X`. -/
def quoteX : Quote :=
  ⟨"X", "ACME CORP", Dec.val ⟨false, 1234, 2⟩, Dec.val ⟨false, 5, 2⟩,
    Dec.val ⟨false, 41, 2⟩, Dec.val ⟨false, 1230, 2⟩, 100,
    Dec.val ⟨false, 1240, 2⟩, 200, 1234⟩

/-- The driver state after scraping `envQ`'s quote page. -/
def stX : St :=
  ⟨9, 0, [.navigate TRADE_STOCK_URL, .clearField SYMBOL_ID, .sendKeys SYMBOL_ID "X",
    .sendKeys SYMBOL_ID KEY_RETURN, .readText COMPANY_TITLE_SEL "ACME CORP",
    .readText LAST_PRICE_SEL "$12.34", .readList CHG_SEL ["+0.05", "(+0.41%)"],
    .readList BLOCKS_PRICE_SEL ["12.30x100", "12.40x200"],
    .readText BLOCK_VOLUME_SEL "1,234"]⟩

/-! ## Digit arithmetic: parsing inverts formatting -/

theorem digitVal?_digitChar (d : Nat) (h : d < 10) :
    digitVal? (digitChar d) = some d := by
  interval_cases d <;> decide

theorem takeDigits_stop (c : Char) (cs : List Char) (h : digitVal? c = none) :
    takeDigits (c :: cs) = ([], c :: cs) := by
  simp [takeDigits, h]

theorem takeDigits_map_append (ds : List Nat) (rest : List Char)
    (h : ∀ d ∈ ds, d < 10) (hr : takeDigits rest = ([], rest)) :
    takeDigits (ds.map digitChar ++ rest) = (ds, rest) := by
  induction ds with
  | nil => simpa using hr
  | cons d t ih =>
    have hd : d < 10 := h d (List.mem_cons_self d t)
    have ht : ∀ x ∈ t, x < 10 := fun x hx => h x (List.mem_cons_of_mem d hx)
    simp only [List.map_cons, List.cons_append, takeDigits,
      digitVal?_digitChar d hd, List.append_eq, ih ht]

theorem digitsVal_append_one (ds : List Nat) (d : Nat) :
    digitsVal (ds ++ [d]) = digitsVal ds * 10 + d := by
  simp [digitsVal, List.foldl_append]

theorem natDigitsAux_val (fuel : Nat) : ∀ n, n ≤ fuel → digitsVal (natDigitsAux fuel n) = n := by
  induction fuel with
  | zero =>
    intro n h
    interval_cases n
    simp [natDigitsAux, digitsVal]
  | succ f ih =>
    intro n h
    by_cases hn : n = 0
    · simp [natDigitsAux, hn, digitsVal]
    · simp only [natDigitsAux, hn, if_false]
      rw [digitsVal_append_one, ih (n / 10) (by omega)]
      omega

theorem natDigitsAux_lt (fuel : Nat) : ∀ n, ∀ d ∈ natDigitsAux fuel n, d < 10 := by
  induction fuel with
  | zero => simp [natDigitsAux]
  | succ f ih =>
    intro n d hd
    by_cases hn : n = 0
    · simp [natDigitsAux, hn] at hd
    · simp only [natDigitsAux, hn, if_false] at hd
      rcases List.mem_append.1 hd with h | h
      · exact ih _ d h
      · simp at h
        omega

theorem digitsVal_natDigitList (n : Nat) : digitsVal (natDigitList n) = n := by
  by_cases h : n = 0
  · simp [natDigitList, digitsVal, h]
  · simp only [natDigitList, h, if_false]
    exact natDigitsAux_val n n le_rfl

theorem natDigitList_lt (n : Nat) : ∀ d ∈ natDigitList n, d < 10 := by
  intro d hd
  by_cases h : n = 0
  · simp [natDigitList, h] at hd
    omega
  · simp only [natDigitList, h, if_false] at hd
    exact natDigitsAux_lt n n d hd

theorem digitsVal_append_two (ds : List Nat) (a b : Nat) :
    digitsVal (ds ++ [a, b]) = digitsVal ds * 100 + (a * 10 + b) := by
  simp only [digitsVal, List.foldl_append, List.foldl_cons, List.foldl_nil]
  ring

/-- The characters of a formatted dollar string survive `_decimal`'s
`$,%()` deletion untouched. -/
theorem formatCents_no_junk (c : Int) :
    (formatCents c).data.filter (fun ch => ¬ ch ∈ moneyJunk) = (formatCents c).data := by
  rw [List.filter_eq_self]
  intro ch hch
  simp only [formatCents, String.data] at hch
  rcases List.mem_append.1 hch with h1 | h1
  · rcases List.mem_append.1 h1 with h2 | h2
    · by_cases hc : c < 0 <;> simp [hc] at h2
      subst h2
      decide
    · rcases List.mem_map.1 h2 with ⟨d, hd, rfl⟩
      have : d < 10 := natDigitList_lt _ d hd
      interval_cases d <;> decide
  · rcases List.mem_cons.1 h1 with h2 | h2
    · subst h2
      decide
    · have h10 : c.natAbs % 100 / 10 < 10 := by omega
      have h11 : c.natAbs % 100 % 10 < 10 := by omega
      rcases List.mem_cons.1 h2 with h3 | h3
      · subst h3
        interval_cases h : c.natAbs % 100 / 10 <;> decide
      · rcases List.mem_cons.1 h3 with h4 | h4
        · subst h4
          interval_cases h : c.natAbs % 100 % 10 <;> decide
        · simp at h4

theorem splitSign_minus (t : List Char) : splitSign ('-' :: t) = (true, t) := by
  simp [splitSign]

theorem natDigitList_ne_nil (n : Nat) : natDigitList n ≠ [] := by
  by_cases h : n = 0
  · simp [natDigitList, h]
  · simp only [natDigitList, h, if_false]
    cases n with
    | zero => exact absurd rfl h
    | succ m => simp [natDigitsAux]

theorem splitSign_digit (ds : List Nat) (rest : List Char) (hne : ds ≠ [])
    (h : ∀ d ∈ ds, d < 10) :
    splitSign (ds.map digitChar ++ rest) = (false, ds.map digitChar ++ rest) := by
  cases ds with
  | nil => exact absurd rfl hne
  | cons d t =>
    have hd : d < 10 := h d (List.mem_cons_self d t)
    simp only [List.map_cons, List.cons_append, splitSign]
    have h1 : digitChar d ≠ '-' := by interval_cases d <;> decide
    have h2 : digitChar d ≠ '+' := by interval_cases d <;> decide
    simp [h1, h2]

/-- Parsing a formatted dollar string recovers sign, coefficient `|c|`
and scale 2. -/
theorem _decimal_formatCents (c : Int) :
    _decimal (formatCents c) = .ok ⟨decide (c < 0), c.natAbs, 2⟩ := by
  have h10 : c.natAbs % 100 / 10 < 10 := by omega
  have h11 : c.natAbs % 100 % 10 < 10 := by omega
  have hfrac : takeDigits [digitChar (c.natAbs % 100 / 10), digitChar (c.natAbs % 100 % 10)]
      = ([c.natAbs % 100 / 10, c.natAbs % 100 % 10], []) := by
    have := takeDigits_map_append [c.natAbs % 100 / 10, c.natAbs % 100 % 10] []
      (by intro d hd; simp at hd; omega) (by rfl)
    simpa using this
  have hint : takeDigits ((natDigitList (c.natAbs / 100)).map digitChar
        ++ '.' :: [digitChar (c.natAbs % 100 / 10), digitChar (c.natAbs % 100 % 10)])
      = (natDigitList (c.natAbs / 100),
         '.' :: [digitChar (c.natAbs % 100 / 10), digitChar (c.natAbs % 100 % 10)]) :=
    takeDigits_map_append _ _ (natDigitList_lt _) (takeDigits_stop '.' _ (by decide))
  have hval : digitsVal (natDigitList (c.natAbs / 100)
        ++ [c.natAbs % 100 / 10, c.natAbs % 100 % 10]) = c.natAbs := by
    rw [digitsVal_append_two, digitsVal_natDigitList]
    omega
  unfold _decimal
  rw [formatCents_no_junk]
  by_cases hc : c < 0
  · simp only [formatCents, hc, if_true, String.data]
    simp only [parseDecCore, List.cons_append, List.singleton_append, splitSign_minus,
      hint, hfrac, List.nil_append]
    simp [hval, hc]
  · simp only [formatCents, hc, if_false, String.data, List.nil_append]
    simp only [parseDecCore,
      splitSign_digit (natDigitList (c.natAbs / 100)) _ (natDigitList_ne_nil _)
        (natDigitList_lt _),
      hint, hfrac]
    simp [hval, hc]

theorem quantCents_abs (c : Int) (h : c.natAbs < 10 ^ decPrec) :
    quantCents ⟨decide (c < 0), c.natAbs, 2⟩ = .ok c := by
  unfold quantCents
  simp only [le_refl, if_true, Nat.sub_self, pow_zero, Nat.mul_one]
  rw [if_neg (by omega)]
  by_cases hc : c < 0
  · rw [decide_eq_true hc]
    show (Except.ok (-(c.natAbs : Int)) : Except PyErr Int) = .ok c
    congr 1
    omega
  · rw [decide_eq_false hc]
    show (Except.ok ((c.natAbs : Int)) : Except PyErr Int) = .ok c
    congr 1
    omega

/-- C6 (amended): for every integer number of cents `c` whose magnitude
stays within the default decimal context (fewer than 27 digits, so that
`quantize` does not overflow the 28-digit precision),
`_cents(_dollars(c)) == c`. -/
theorem c6_cents_roundtrip (c : Int) (h : c.natAbs < 10 ^ 26) :
    (_dollars c).bind _cents = .ok c := by
  have hd : _dollars c = .ok (formatCents c) := by
    unfold _dollars
    rw [if_neg]
    simp only [decPrec]
    omega
  rw [hd]
  show _cents (formatCents c) = .ok c
  unfold _cents
  rw [_decimal_formatCents]
  exact quantCents_abs c (by simp only [decPrec]; omega)

/-- C6 (counterexample): at `c = 10^26` the quantize step of `_dollars`
overflows the 28-digit default context and raises `InvalidOperation`,
so `_cents(_dollars(c))` is not `c`. -/
theorem c6_counterexample :
    (_dollars (10 ^ 26)).bind _cents = .error .invalidOperation ∧
      (_dollars (10 ^ 26)).bind _cents ≠ .ok ((10 : Int) ^ 26) := by
  have h1 : (_dollars (10 ^ 26)).bind _cents = .error .invalidOperation := by rfl
  refine ⟨h1, ?_⟩
  rw [h1]
  intro h
  exact Except.noConfusion h

/-- C6 (witness): the round trip at `c = -1234` gives `-1234`. -/
theorem c6_witness :
    ((-1234 : Int).natAbs < 10 ^ 26) ∧ (_dollars (-1234)).bind _cents = .ok (-1234) :=
  ⟨by decide, c6_cents_roundtrip (-1234) (by decide)⟩

/-! ## Basic lemmas about the driver monad -/

theorem bind_def (x : DM α) (f : α → DM β) : x >>= f = DM.bind x f := rfl

theorem pure_def (a : α) : (Pure.pure a : DM α) = DM.pure a := rfl

theorem DM.bind_pure_left (a : α) (f : α → DM β) : DM.bind (DM.pure a) f = f a := rfl

theorem DM.bind_apply (x : DM α) (f : α → DM β) (env : Env) (st : St) :
    DM.bind x f env st =
      match x env st with
      | (.ok a, st1) => f a env st1
      | (.error e, st1) => (.error e, st1) := rfl

theorem _validate_action_eq (action : Action) : _validate_action action = DM.pure ⟨⟩ := by
  cases action <;> simp [_validate_action]

theorem _validate_unit_eq (unit : Unit) : _validate_unit unit = DM.pure ⟨⟩ := by
  cases unit <;> simp [_validate_unit]

/-- C10: `Driver.__init__` raises `ValueError` for nonpositive `timeout`
(checked first) and for negative `delay`, accepting everything else, all
before any browser interaction; `marketable_limit_order` with a negative
`buffer` raises `ValueError` leaving the browser untouched (no event, no
primitive consumed). -/
theorem c10_validation :
    (∀ timeout delay, timeout ≤ 0 →
      driver_init timeout delay = .error (.valueError DRIVER_TIMEOUT)) ∧
    (∀ timeout delay, 0 < timeout → delay < 0 →
      driver_init timeout delay = .error (.valueError DRIVER_DELAY)) ∧
    (∀ timeout delay, 0 < timeout → 0 ≤ delay →
      driver_init timeout delay = .ok ⟨timeout, delay⟩) ∧
    (∀ account symbol action unit quantity buffer env st, buffer < 0 →
      marketable_limit_order account symbol action unit quantity buffer env st
        = (.error (.valueError DRIVER_MARKETABLE_LIMIT_ORDER_BUFFER), st)) := by
  refine ⟨?_, ?_, ?_, ?_⟩
  · intro timeout delay h
    simp [driver_init, h]
  · intro timeout delay h1 h2
    rw [driver_init, if_neg (not_le.2 h1), if_pos h2]
  · intro timeout delay h1 h2
    rw [driver_init, if_neg (not_le.2 h1), if_neg (not_lt.2 h2)]
  · intro account symbol action unit quantity buffer env st h
    simp only [marketable_limit_order, bind_def, _validate_action_eq, _validate_unit_eq,
      DM.bind_pure_left, h, if_true]
    rfl

/-- C10 (witness): concrete instances of all four validation branches. -/
theorem c10_witness :
    driver_init 0 1 = .error (.valueError DRIVER_TIMEOUT) ∧
    driver_init 10 (-1) = .error (.valueError DRIVER_DELAY) ∧
    driver_init 10 1 = .ok ⟨10, 1⟩ ∧
    marketable_limit_order "a" "s" .BUY .SHARES "1" (-1) env0 st0
      = (.error (.valueError DRIVER_MARKETABLE_LIMIT_ORDER_BUFFER), st0) := by
  refine ⟨?_, ?_, ?_, ?_⟩
  · exact c10_validation.1 0 1 (by norm_num)
  · exact c10_validation.2.1 10 (-1) (by norm_num) (by norm_num)
  · exact c10_validation.2.2.1 10 1 (by norm_num) (by norm_num)
  · exact c10_validation.2.2.2 "a" "s" .BUY .SHARES "1" (-1) env0 st0 (by norm_num)

/-! ## Safe computations: field-setting steps -/

theorem safeA_bind {x : DM α} {f : α → DM β} (hx : SafeA x) (hf : ∀ a, SafeA (f a)) :
    SafeA (DM.bind x f) := by
  intro env st
  obtain ⟨K, xs, h2, hxs⟩ := hx env st
  rcases hres : x env st with ⟨r, st1⟩
  rw [hres] at h2
  simp only at h2
  subst h2
  cases r with
  | error e =>
    refine ⟨K, xs, ?_, hxs⟩
    simp [DM.bind, hres]
  | ok a =>
    obtain ⟨K2, ys, g2, hys⟩ := hf a env ⟨K, st.p, st.trace ++ xs⟩
    refine ⟨K2, xs ++ ys, ?_, ?_⟩
    · simp only [DM.bind, hres]
      simp only at g2
      rw [g2, List.append_assoc]
    · intro e he
      rcases List.mem_append.1 he with h | h
      · exact hxs e h
      · exact hys e h

theorem safeA_navigate (url : String) : SafeA (navigate url) := by
  intro env st
  by_cases h : env.fails st.k
  · exact ⟨st.k + 1, [], by simp [navigate, h], by simp⟩
  · exact ⟨st.k + 1, [.navigate url], by simp [navigate, h], by simp [SafeEv]⟩

theorem safeA_clickSel (selector : String) (h1 : selector ≠ PREVIEW_BTN)
    (h2 : selector ≠ PLACE_BTN) : SafeA (clickSel selector) := by
  intro env st
  by_cases h : env.fails st.k
  · exact ⟨st.k + 1, [], by simp [clickSel, h], by simp⟩
  · exact ⟨st.k + 1, [.click selector], by simp [clickSel, h], by simp [SafeEv, h1, h2]⟩

theorem safeA_clickText (label : String) : SafeA (clickText label) := by
  intro env st
  by_cases h : env.fails st.k
  · exact ⟨st.k + 1, [], by simp [clickText, h], by simp⟩
  · exact ⟨st.k + 1, [.clickText label], by simp [clickText, h], by simp [SafeEv]⟩

theorem safeA_fieldClear (id : String) : SafeA (fieldClear id) := by
  intro env st
  by_cases h : env.fails st.k
  · exact ⟨st.k + 1, [], by simp [fieldClear, h], by simp⟩
  · exact ⟨st.k + 1, [.clearField id], by simp [fieldClear, h], by simp [SafeEv]⟩

theorem safeA_fieldKeys (id text : String) : SafeA (fieldKeys id text) := by
  intro env st
  by_cases h : env.fails st.k
  · exact ⟨st.k + 1, [], by simp [fieldKeys, h], by simp⟩
  · exact ⟨st.k + 1, [.sendKeys id text], by simp [fieldKeys, h], by simp [SafeEv]⟩

theorem safeA_readText (selector : String) : SafeA (readText selector) := by
  intro env st
  by_cases h : env.fails st.k
  · exact ⟨st.k + 1, [], by simp [readText, h], by simp⟩
  · exact ⟨st.k + 1, [.readText selector (env.text st.k)], by simp [readText, h],
      by simp [SafeEv]⟩

theorem safeA_readTexts (selector : String) : SafeA (readTexts selector) := by
  intro env st
  by_cases h : env.fails st.k
  · exact ⟨st.k + 1, [], by simp [readTexts, h], by simp⟩
  · exact ⟨st.k + 1, [.readList selector (env.texts st.k)], by simp [readTexts, h],
      by simp [SafeEv]⟩

theorem safeA_sleepD : SafeA sleepD := by
  intro env st
  exact ⟨st.k, [.slept], by simp [sleepD, St.push], by simp [SafeEv]⟩

theorem safeA_liftE (x : Except PyErr α) : SafeA (liftE x) := by
  intro env st
  exact ⟨st.k, [], by simp [liftE], by simp⟩

theorem safeA_pure (a : α) : SafeA (DM.pure a) := by
  intro env st
  exact ⟨st.k, [], by simp [DM.pure], by simp⟩

theorem safeA_raiseErr (e : PyErr) : SafeA (raiseErr e : DM α) := by
  intro env st
  exact ⟨st.k, [], by simp [raiseErr], by simp⟩

theorem safeA_stock_set_account (account : String) : SafeA (stock_set_account account) :=
  safeA_navigate _

theorem safeA_mutual_fund_set_account (account : String) :
    SafeA (mutual_fund_set_account account) :=
  safeA_navigate _

theorem safeA_set_symbol (id symbol : String) : SafeA (set_symbol id symbol) := by
  unfold set_symbol
  simp only [bind_def]
  exact safeA_bind (safeA_fieldClear _)
    (fun _ => safeA_bind (safeA_fieldKeys _ _) (fun _ => safeA_fieldKeys _ _))

theorem safeA_stock_set_symbol (symbol : String) : SafeA (stock_set_symbol symbol) :=
  safeA_set_symbol _ _

theorem safeA_mutual_fund_set_symbol (symbol : String) :
    SafeA (mutual_fund_set_symbol symbol) :=
  safeA_set_symbol _ _

theorem safeA_mutual_fund_set_buy_symbol (symbol : String) :
    SafeA (mutual_fund_set_buy_symbol symbol) :=
  safeA_set_symbol _ _

theorem safeA_stock_set_action (action : Action) : SafeA (stock_set_action action) := by
  cases action
  · exact safeA_clickSel _ (by decide) (by decide)
  · exact safeA_clickSel _ (by decide) (by decide)

theorem safeA_mutual_fund_set_action (action : Option Action) :
    SafeA (mutual_fund_set_action action) := by
  unfold mutual_fund_set_action
  simp only [bind_def]
  refine safeA_bind (safeA_clickSel _ (by decide) (by decide)) (fun _ => ?_)
  refine safeA_bind (safeA_readTexts _) (fun items => ?_)
  refine safeA_bind safeA_sleepD (fun _ => ?_)
  cases items.find? (fun s =>
      (s == BUY_TEXT && action == some .BUY)
      || (s == SELL_TEXT && action == some .SELL)
      || (s == EXCHANGE_TEXT && action.isNone)) with
  | none => exact safeA_bind (safeA_pure _) (fun _ => safeA_sleepD)
  | some s => exact safeA_bind (safeA_clickText _) (fun _ => safeA_sleepD)

theorem safeA_stock_set_unit (unit : Unit) : SafeA (stock_set_unit unit) := by
  cases unit
  · exact safeA_clickSel _ (by decide) (by decide)
  · exact safeA_clickSel _ (by decide) (by decide)

theorem safeA_mutual_fund_set_unit (unit : Unit) : SafeA (mutual_fund_set_unit unit) := by
  cases unit
  · exact safeA_clickSel _ (by decide) (by decide)
  · exact safeA_clickSel _ (by decide) (by decide)

theorem safeA_set_quantity (id quantity : String) : SafeA (set_quantity id quantity) := by
  unfold set_quantity
  simp only [bind_def]
  exact safeA_bind (safeA_fieldClear _) (fun _ => safeA_fieldKeys _ _)

theorem safeA_stock_set_quantity (quantity : String) : SafeA (stock_set_quantity quantity) :=
  safeA_set_quantity _ _

theorem safeA_mutual_fund_set_quantity (quantity : String) :
    SafeA (mutual_fund_set_quantity quantity) :=
  safeA_set_quantity _ _

theorem safeA_stock_set_market : SafeA stock_set_market :=
  safeA_clickSel _ (by decide) (by decide)

theorem safeA_stock_set_limit (limit : String) : SafeA (stock_set_limit limit) := by
  unfold stock_set_limit
  simp only [bind_def]
  exact safeA_bind (safeA_clickSel _ (by decide) (by decide))
    (fun _ => safeA_bind (safeA_fieldClear _) (fun _ => safeA_fieldKeys _ _))

theorem safeA_stock_set_gtc : SafeA stock_set_gtc :=
  safeA_clickSel _ (by decide) (by decide)

theorem safeA_stock_bid_ask : SafeA stock_bid_ask := by
  unfold stock_bid_ask
  simp only [bind_def]
  refine safeA_bind (safeA_readTexts _) (fun ss => ?_)
  refine safeA_bind (safeA_liftE _) (fun cs => ?_)
  match cs with
  | [b, a] => exact safeA_pure _
  | [] => exact safeA_raiseErr _
  | [b] => exact safeA_raiseErr _
  | b :: a :: c :: t => exact safeA_raiseErr _

/-- Every order-placement setup only sets fields: it asks no prompt and
clicks neither the preview nor the place button. -/
theorem safeA_setupOfCall (c : OrderCall) : SafeA (setupOfCall c) := by
  cases c with
  | market account symbol action unit quantity =>
    unfold setupOfCall market_order_setup
    simp only [bind_def]
    exact safeA_bind (safeA_stock_set_account _) (fun _ =>
      safeA_bind (safeA_stock_set_symbol _) (fun _ =>
      safeA_bind (safeA_stock_set_action _) (fun _ =>
      safeA_bind (safeA_stock_set_unit _) (fun _ =>
      safeA_bind (safeA_stock_set_quantity _) (fun _ => safeA_stock_set_market)))))
  | limit account symbol action unit quantity limitPrice =>
    unfold setupOfCall limit_order_setup
    simp only [bind_def]
    exact safeA_bind (safeA_stock_set_account _) (fun _ =>
      safeA_bind (safeA_stock_set_symbol _) (fun _ =>
      safeA_bind (safeA_stock_set_action _) (fun _ =>
      safeA_bind (safeA_stock_set_unit _) (fun _ =>
      safeA_bind (safeA_stock_set_quantity _) (fun _ => safeA_stock_set_limit _)))))
  | marketableLimit account symbol action unit quantity buffer =>
    unfold setupOfCall marketable_limit_order_setup
    simp only [bind_def]
    exact safeA_bind (safeA_stock_set_account _) (fun _ =>
      safeA_bind (safeA_stock_set_symbol _) (fun _ =>
      safeA_bind (safeA_stock_set_action _) (fun _ =>
      safeA_bind (safeA_stock_set_unit _) (fun _ =>
      safeA_bind (safeA_stock_set_quantity _) (fun _ =>
      safeA_bind safeA_stock_bid_ask (fun _ =>
      safeA_bind (safeA_liftE _) (fun _ => safeA_stock_set_limit _)))))))
  | gtc account symbol action shares limitPrice =>
    unfold setupOfCall gtc_order_setup
    simp only [bind_def]
    exact safeA_bind (safeA_stock_set_account _) (fun _ =>
      safeA_bind (safeA_stock_set_symbol _) (fun _ =>
      safeA_bind (safeA_stock_set_action _) (fun _ =>
      safeA_bind (safeA_stock_set_unit _) (fun _ =>
      safeA_bind (safeA_stock_set_quantity _) (fun _ =>
      safeA_bind (safeA_stock_set_limit _) (fun _ => safeA_stock_set_gtc))))))
  | buyMF account symbol dollars =>
    unfold setupOfCall buy_mutual_fund_setup
    simp only [bind_def]
    exact safeA_bind (safeA_mutual_fund_set_account _) (fun _ =>
      safeA_bind (safeA_mutual_fund_set_symbol _) (fun _ =>
      safeA_bind (safeA_mutual_fund_set_action _) (fun _ =>
      safeA_mutual_fund_set_quantity _)))
  | sellMF account symbol unit quantity =>
    unfold setupOfCall sell_mutual_fund_setup
    simp only [bind_def]
    exact safeA_bind (safeA_mutual_fund_set_account _) (fun _ =>
      safeA_bind (safeA_mutual_fund_set_symbol _) (fun _ =>
      safeA_bind (safeA_mutual_fund_set_action _) (fun _ =>
      safeA_bind (safeA_mutual_fund_set_unit _) (fun _ =>
      safeA_mutual_fund_set_quantity _))))
  | exchangeMF account sell_symbol unit quantity buy_symbol =>
    unfold setupOfCall exchange_mutual_fund_setup
    simp only [bind_def]
    exact safeA_bind (safeA_mutual_fund_set_account _) (fun _ =>
      safeA_bind (safeA_mutual_fund_set_symbol _) (fun _ =>
      safeA_bind (safeA_mutual_fund_set_action _) (fun _ =>
      safeA_bind (safeA_mutual_fund_set_unit _) (fun _ =>
      safeA_bind (safeA_mutual_fund_set_quantity _) (fun _ =>
      safeA_mutual_fund_set_buy_symbol _)))))

/-! ## Execution of `__place_order` and of a guarded order method -/

/-- The four possible runs of `__place_order` from an explicit state:
the preview click fails; the first prompt is declined; the place click
fails; or everything runs and the result is the second prompt's answer. -/
theorem place_order_cases (env : Env) (K p : Nat) (tr : List Event) :
    (env.fails K = true ∧
      place_order env ⟨K, p, tr⟩ = (.error (.webDriver K), ⟨K + 1, p, tr ++ [.slept]⟩)) ∨
    (env.fails K = false ∧ accepts (env.answer p) = false ∧
      place_order env ⟨K, p, tr⟩ = (.ok false, ⟨K + 1, p + 1,
        tr ++ [.slept, .click PREVIEW_BTN, .prompted PLACE_PROMPT_FULL (env.answer p)]⟩)) ∨
    (env.fails K = false ∧ accepts (env.answer p) = true ∧ env.fails (K + 1) = true ∧
      place_order env ⟨K, p, tr⟩ = (.error (.webDriver (K + 1)), ⟨K + 2, p + 1,
        tr ++ [.slept, .click PREVIEW_BTN, .prompted PLACE_PROMPT_FULL (env.answer p)]⟩)) ∨
    (env.fails K = false ∧ accepts (env.answer p) = true ∧ env.fails (K + 1) = false ∧
      place_order env ⟨K, p, tr⟩ = (.ok (accepts (env.answer (p + 1))), ⟨K + 2, p + 2,
        tr ++ successTail (env.answer p) (env.answer (p + 1))⟩)) := by
  by_cases hf1 : env.fails K
  · left
    refine ⟨hf1, ?_⟩
    simp [place_order, click_preview_order, click_place_order, _confirm, promptUser,
      bind_def, pure_def, DM.bind, DM.pure, sleepD, clickSel, St.push, hf1, PLACE_PROMPT_FULL]
  · by_cases ha : accepts (env.answer p)
    · by_cases hf2 : env.fails (K + 1)
      · right; right; left
        refine ⟨by simp [hf1], ha, hf2, ?_⟩
        simp [place_order, click_preview_order, click_place_order, _confirm, promptUser,
          bind_def, pure_def, DM.bind, DM.pure, sleepD, clickSel, St.push, hf1, ha, hf2,
          PLACE_PROMPT_FULL]
      · right; right; right
        refine ⟨by simp [hf1], ha, by simp [hf2], ?_⟩
        simp [place_order, click_preview_order, click_place_order, _confirm, promptUser,
          bind_def, pure_def, DM.bind, DM.pure, sleepD, clickSel, St.push, hf1, ha, hf2,
          PLACE_PROMPT_FULL, SUCCESS_PROMPT_FULL, successTail]
    · right; left
      refine ⟨by simp [hf1], by simp [ha], ?_⟩
      simp [place_order, click_preview_order, click_place_order, _confirm, promptUser,
        bind_def, pure_def, DM.bind, DM.pure, sleepD, clickSel, St.push, hf1, ha, PLACE_PROMPT_FULL]

/-- The five possible runs of a guarded order-placement method whose
try-block is a safe field-setting prefix followed by `__place_order`:
the setup raises (caught, logged, `False`); the preview click raises
(idem); the first prompt is declined (`False`, nothing logged); the
place click raises (caught, logged, `False`); or the full sequence runs
and the second prompt decides the result. -/
theorem guarded_place_cases (msg : String) (s : DM PUnit) (hs : SafeA s)
    (env : Env) (st : St) :
    ∃ K xs, (∀ e ∈ xs, SafeEv e) ∧
      ((∃ K1, guarded msg (DM.bind s (fun _ => place_order)) env st
          = (.ok false, ⟨K1, st.p, st.trace ++ xs ++ [.logged msg]⟩)) ∨
       (env.fails K = false ∧ accepts (env.answer st.p) = false ∧
        guarded msg (DM.bind s (fun _ => place_order)) env st
          = (.ok false, ⟨K + 1, st.p + 1, st.trace ++ xs
              ++ [.slept, .click PREVIEW_BTN,
                  .prompted PLACE_PROMPT_FULL (env.answer st.p)]⟩)) ∨
       (env.fails K = false ∧ accepts (env.answer st.p) = true ∧ env.fails (K + 1) = true ∧
        guarded msg (DM.bind s (fun _ => place_order)) env st
          = (.ok false, ⟨K + 2, st.p + 1, st.trace ++ xs
              ++ [.slept, .click PREVIEW_BTN,
                  .prompted PLACE_PROMPT_FULL (env.answer st.p), .logged msg]⟩)) ∨
       (env.fails K = false ∧ accepts (env.answer st.p) = true ∧ env.fails (K + 1) = false ∧
        guarded msg (DM.bind s (fun _ => place_order)) env st
          = (.ok (accepts (env.answer (st.p + 1))), ⟨K + 2, st.p + 2, st.trace ++ xs
              ++ successTail (env.answer st.p) (env.answer (st.p + 1))⟩))) := by
  obtain ⟨K, xs, h2, hxs⟩ := hs env st
  rcases hres : s env st with ⟨r, st1⟩
  rw [hres] at h2
  simp only at h2
  subst h2
  cases r with
  | error e =>
    refine ⟨K, xs, hxs, Or.inl ⟨K, ?_⟩⟩
    simp [guarded, DM.bind, hres, St.push, List.append_assoc]
  | ok a =>
    have hpl := place_order_cases env K st.p (st.trace ++ xs)
    rcases hpl with ⟨hf1, heq⟩ | ⟨hf1, ha, heq⟩ | ⟨hf1, ha, hf2, heq⟩ | ⟨hf1, ha, hf2, heq⟩
    · refine ⟨K, xs ++ [.slept], ?_, Or.inl ⟨K + 1, ?_⟩⟩
      · intro e he
        rcases List.mem_append.1 he with h | h
        · exact hxs e h
        · simp at h
          subst h
          trivial
      · simp [guarded, DM.bind, hres, heq, St.push, List.append_assoc]
    · refine ⟨K, xs, hxs, Or.inr (Or.inl ⟨hf1, ha, ?_⟩)⟩
      simp [guarded, DM.bind, hres, heq, List.append_assoc]
    · refine ⟨K, xs, hxs, Or.inr (Or.inr (Or.inl ⟨hf1, ha, hf2, ?_⟩))⟩
      simp [guarded, DM.bind, hres, heq, St.push, List.append_assoc]
    · refine ⟨K, xs, hxs, Or.inr (Or.inr (Or.inr ⟨hf1, ha, hf2, ?_⟩))⟩
      simp [guarded, DM.bind, hres, heq, List.append_assoc, successTail]

/-! ## Trace lemmas -/

theorem not_place_of_safe (xs : List Event) (hxs : ∀ e ∈ xs, SafeEv e) :
    Event.click PLACE_BTN ∉ xs := by
  intro h
  have := hxs _ h
  simp [SafeEv] at this

theorem not_prompted_of_safe (xs : List Event) (hxs : ∀ e ∈ xs, SafeEv e)
    (pr r : String) : Event.prompted pr r ∉ xs := by
  intro h
  have := hxs _ h
  simp [SafeEv] at this

theorem placeGated_of_not_mem (tr : List Event) (h : Event.click PLACE_BTN ∉ tr) :
    placeGated tr := by
  intro k hk
  exact absurd (List.get?_mem hk) h

theorem placeGated_safe_successTail (xs : List Event) (hxs : ∀ e ∈ xs, SafeEv e)
    (r0 r1 : String) (h0 : accepts r0 = true) :
    placeGated (xs ++ successTail r0 r1) := by
  intro k hk
  rcases Nat.lt_or_ge k xs.length with hlt | hge
  · rw [List.get?_append hlt] at hk
    exact absurd (hxs _ (List.get?_mem hk)) (by simp [SafeEv])
  · rw [List.get?_append_right hge] at hk
    have h5 : k - xs.length < 5 := by
      by_contra hge5
      rw [List.get?_eq_none.2 (by simp [successTail]; omega)] at hk
      exact Option.noConfusion hk
    have hcase : k - xs.length = 0 ∨ k - xs.length = 1 ∨ k - xs.length = 2
        ∨ k - xs.length = 3 ∨ k - xs.length = 4 := by omega
    rcases hcase with hm | hm | hm | hm | hm <;> rw [hm] at hk
    · simp [successTail] at hk
    · simp [successTail, PREVIEW_BTN, PLACE_BTN] at hk
    · simp [successTail] at hk
    · have hk3 : k = xs.length + 3 := by omega
      constructor
      · refine ⟨xs.length + 1, by omega, ?_⟩
        rw [List.get?_append_right (by omega)]
        have : xs.length + 1 - xs.length = 1 := by omega
        rw [this]
        rfl
      · refine ⟨xs.length + 2, by omega, r0, ?_, h0⟩
        rw [List.get?_append_right (by omega)]
        have : xs.length + 2 - xs.length = 2 := by omega
        rw [this]
        rfl
    · simp [successTail] at hk

/-- A prompt event in a safe prefix followed by the successful tail must
be one of the tail's two prompts. -/
theorem prompted_mem_successTail (xs : List Event) (hxs : ∀ e ∈ xs, SafeEv e)
    (r0 r1 pr r : String) (h : Event.prompted pr r ∈ xs ++ successTail r0 r1) :
    (pr = PLACE_PROMPT_FULL ∧ r = r0) ∨ (pr = SUCCESS_PROMPT_FULL ∧ r = r1) := by
  rcases List.mem_append.1 h with h1 | h1
  · exact absurd h1 (not_prompted_of_safe xs hxs pr r)
  · simp [successTail] at h1
    rcases h1 with ⟨h2, h3⟩ | ⟨h2, h3⟩
    · exact Or.inl ⟨h2, h3⟩
    · exact Or.inr ⟨h2, h3⟩

/-! ## The gating and success contracts of a guarded order method -/

theorem gatedRun_guarded (msg : String) (s : DM PUnit) (hs : SafeA s) (env : Env) :
    gatedRun (guarded msg (DM.bind s (fun _ => place_order)) env st0) := by
  obtain ⟨K, xs, hxs, hcases⟩ := guarded_place_cases msg s hs env st0
  simp only [st0, List.nil_append] at hcases
  simp only [st0]
  rcases hcases with ⟨K1, heq⟩ | ⟨hf1, ha, heq⟩ | ⟨hf1, ha, hf2, heq⟩ | ⟨hf1, ha, hf2, heq⟩
  · rw [heq]
    refine ⟨?_, ?_, ?_⟩
    · refine placeGated_of_not_mem _ ?_
      intro h
      rcases List.mem_append.1 h with h1 | h1
      · exact not_place_of_safe xs hxs h1
      · simp at h1
    · intro r hr hfalse
      rcases List.mem_append.1 hr with h1 | h1
      · exact absurd h1 (not_prompted_of_safe xs hxs _ r)
      · simp at h1
    · intro h
      simp at h
  · rw [heq]
    have hnp : Event.click PLACE_BTN
        ∉ xs ++ [.slept, .click PREVIEW_BTN, .prompted PLACE_PROMPT_FULL (env.answer st0.p)] := by
      intro h
      rcases List.mem_append.1 h with h1 | h1
      · exact not_place_of_safe xs hxs h1
      · simp [PREVIEW_BTN, PLACE_BTN] at h1
    refine ⟨placeGated_of_not_mem _ hnp, ?_, ?_⟩
    · intro r hr hfalse
      exact ⟨rfl, hnp⟩
    · intro h
      simp at h
  · rw [heq]
    have hnp : Event.click PLACE_BTN ∉ xs
        ++ [.slept, .click PREVIEW_BTN, .prompted PLACE_PROMPT_FULL (env.answer st0.p),
            .logged msg] := by
      intro h
      rcases List.mem_append.1 h with h1 | h1
      · exact not_place_of_safe xs hxs h1
      · simp [PREVIEW_BTN, PLACE_BTN] at h1
    refine ⟨placeGated_of_not_mem _ hnp, ?_, ?_⟩
    · intro r hr hfalse
      exact ⟨rfl, hnp⟩
    · intro h
      simp at h
  · rw [heq]
    refine ⟨placeGated_safe_successTail xs hxs _ _ ha, ?_, ?_⟩
    · intro r hr hfalse
      rcases prompted_mem_successTail xs hxs _ _ _ _ hr with ⟨h1, h2⟩ | ⟨h1, h2⟩
      · rw [h2] at hfalse
        rw [hfalse] at ha
        exact Bool.noConfusion ha
      · exfalso
        revert h1
        simp [PLACE_PROMPT_FULL, SUCCESS_PROMPT_FULL, PLACE_PROMPT, SUCCESS_PROMPT, YN_SUFFIX]
    · intro h
      simp only at h
      have hacc : accepts (env.answer 1) = true := by simpa using h
      exact ⟨xs, env.answer 0, env.answer 1, by simp, ha, hacc⟩

theorem prompts_ne : PLACE_PROMPT_FULL ≠ SUCCESS_PROMPT_FULL := by decide

theorem successIff_guarded (msg : String) (s : DM PUnit) (hs : SafeA s) (env : Env) :
    successIff (guarded msg (DM.bind s (fun _ => place_order)) env st0) := by
  obtain ⟨K, xs, hxs, hcases⟩ := guarded_place_cases msg s hs env st0
  simp only [st0, List.nil_append] at hcases
  simp only [st0]
  rcases hcases with ⟨K1, heq⟩ | ⟨hf1, ha, heq⟩ | ⟨hf1, ha, hf2, heq⟩ | ⟨hf1, ha, hf2, heq⟩
  · rw [heq]
    refine ⟨⟨?_, ?_⟩, Or.inr rfl⟩
    · intro h
      simp at h
    · rintro ⟨t, r0', r1', htr, h0', h1'⟩
      have hlast := congrArg List.getLast? htr
      rw [List.getLast?_append_of_ne_nil xs (by simp),
        List.getLast?_append_of_ne_nil t (by simp [successTail])] at hlast
      simp [successTail] at hlast
  · rw [heq]
    refine ⟨⟨?_, ?_⟩, Or.inr rfl⟩
    · intro h
      simp at h
    · rintro ⟨t, r0', r1', htr, h0', h1'⟩
      have hlast := congrArg List.getLast? htr
      rw [List.getLast?_append_of_ne_nil xs (by simp),
        List.getLast?_append_of_ne_nil t (by simp [successTail])] at hlast
      simp [successTail, prompts_ne] at hlast
  · rw [heq]
    refine ⟨⟨?_, ?_⟩, Or.inr rfl⟩
    · intro h
      simp at h
    · rintro ⟨t, r0', r1', htr, h0', h1'⟩
      have hlast := congrArg List.getLast? htr
      rw [List.getLast?_append_of_ne_nil xs (by simp),
        List.getLast?_append_of_ne_nil t (by simp [successTail])] at hlast
      simp [successTail] at hlast
  · rw [heq]
    constructor
    · constructor
      · intro h
        simp only at h
        have hacc : accepts (env.answer 1) = true := by simpa using h
        exact ⟨xs, env.answer 0, env.answer 1, by simp, ha, hacc⟩
      · rintro ⟨t, r0', r1', htr, h0', h1'⟩
        have hlast := congrArg List.getLast? htr
        rw [List.getLast?_append_of_ne_nil xs (by simp [successTail]),
          List.getLast?_append_of_ne_nil t (by simp [successTail])] at hlast
        simp only [successTail, List.getLast?] at hlast
        have hr1 : env.answer (0 + 1) = r1' := by
          simpa using hlast
        simp only [hr1, h1']
    · simp only
      cases hb : accepts (env.answer (0 + 1))
      · exact Or.inr rfl
      · exact Or.inl rfl

theorem boundaryCaught_guarded (msg : String) (body : DM Bool) :
    boundaryCaught msg body (guarded msg body) := by
  intro env st
  constructor
  · rcases hres : body env st with ⟨r, st1⟩
    cases r with
    | ok b => exact ⟨b, st1, by simp [guarded, hres]⟩
    | error e => exact ⟨false, st1.push (.logged msg), by simp [guarded, hres]⟩
  · intro e st1 h
    simp [guarded, h]

/-- With validated arguments, each order-placement method is exactly its
guarded try-block: the field-setting prefix followed by `__place_order`,
under the catch-log-return-`False` boundary. -/
theorem dispatch_valid_eq (c : OrderCall) (hc : c.valid) :
    dispatch c = guarded (msgOfCall c) (bodyOfCall c) := by
  cases c with
  | market account symbol action unit quantity =>
    simp only [dispatch, market_order, bind_def, _validate_action_eq, _validate_unit_eq,
      DM.bind_pure_left, msgOfCall, bodyOfCall, setupOfCall]
  | limit account symbol action unit quantity limitPrice =>
    simp only [dispatch, limit_order, bind_def, _validate_action_eq, _validate_unit_eq,
      DM.bind_pure_left, msgOfCall, bodyOfCall, setupOfCall]
  | marketableLimit account symbol action unit quantity buffer =>
    simp only [OrderCall.valid] at hc
    simp only [dispatch, marketable_limit_order, bind_def, _validate_action_eq,
      _validate_unit_eq, DM.bind_pure_left, msgOfCall, bodyOfCall, setupOfCall,
      if_neg (not_lt.2 hc)]
  | gtc account symbol action shares limitPrice =>
    simp only [dispatch, gtc_order, bind_def, _validate_action_eq,
      DM.bind_pure_left, msgOfCall, bodyOfCall, setupOfCall]
  | buyMF account symbol dollars =>
    simp only [dispatch, buy_mutual_fund, msgOfCall, bodyOfCall, setupOfCall]
  | sellMF account symbol unit quantity =>
    simp only [dispatch, sell_mutual_fund, bind_def, _validate_unit_eq,
      DM.bind_pure_left, msgOfCall, bodyOfCall, setupOfCall]
  | exchangeMF account sell_symbol unit quantity buy_symbol =>
    simp only [dispatch, exchange_mutual_fund, bind_def, _validate_unit_eq,
      DM.bind_pure_left, msgOfCall, bodyOfCall, setupOfCall]

/-- C1 (amended): for every order-placement method of `Driver`
(`market_order`, `limit_order`, `marketable_limit_order`, `gtc_order`,
`buy_mutual_fund`, `sell_mutual_fund`, `exchange_mutual_fund`) whose
arguments pass validation (for `marketable_limit_order`, a nonnegative
`buffer`), any failure raised during the try-block is caught at the
method boundary, logged, and converted to the return value `False`; the
method always returns a boolean.  (Validation errors raised before the
try-block — a negative `buffer` — do escape; see the counterexample.) -/
theorem c1_orders_catch_and_log (c : OrderCall) (hc : c.valid) :
    boundaryCaught (msgOfCall c) (bodyOfCall c) (dispatch c) := by
  rw [dispatch_valid_eq c hc]
  exact boundaryCaught_guarded _ _

/-- C1 (counterexample): `marketable_limit_order` with `buffer = -1`
raises `ValueError` out of the method — an exception escapes an
order-placement method, it is not converted to `False` and nothing is
logged. -/
theorem c1_counterexample :
    marketable_limit_order "a" "s" .BUY .SHARES "1" (-1) env0 st0
      = (.error (.valueError DRIVER_MARKETABLE_LIMIT_ORDER_BUFFER), st0) := rfl

/-- C1 (witness): the boundary contract at a concrete market order. -/
theorem c1_witness :
    (OrderCall.market "a" "s" .BUY .SHARES "1").valid ∧
      boundaryCaught (msgOfCall (.market "a" "s" .BUY .SHARES "1"))
        (bodyOfCall (.market "a" "s" .BUY .SHARES "1"))
        (dispatch (.market "a" "s" .BUY .SHARES "1")) :=
  ⟨trivial, c1_orders_catch_and_log (.market "a" "s" .BUY .SHARES "1") trivial⟩

/-- C2: in every run of every order-placement method (with validated
arguments), the place-order button is clicked only after the
preview-order button has been clicked and the user has accepted the
`Place order` prompt; if the user declines that prompt the place-order
button is never clicked and the method returns `False`; and a `True`
result requires both prompts accepted around the preview and place
clicks. -/
theorem c2_place_gated (c : OrderCall) (hc : c.valid) (env : Env) :
    gatedRun (dispatch c env st0) := by
  rw [dispatch_valid_eq c hc]
  exact gatedRun_guarded _ _ (safeA_setupOfCall c) env

/-- C2 (witness): the gating contract at a concrete limit order. -/
theorem c2_witness :
    (OrderCall.limit "a" "s" .SELL .DOLLARS "5" "1.00").valid ∧
      gatedRun (dispatch (.limit "a" "s" .SELL .DOLLARS "5" "1.00") env0 st0) :=
  ⟨trivial, c2_place_gated (.limit "a" "s" .SELL .DOLLARS "5" "1.00") trivial env0⟩

/-- C4 (amended): with validated arguments, an order-placement method
returns `True` if and only if the preview click succeeds, the user
accepts the first prompt (empty answer or `y` case-insensitively), the
place click succeeds, and the user accepts the second prompt; in every
other case it returns `False`.  (With a negative `buffer`,
`marketable_limit_order` instead raises `ValueError`; see the
counterexample.) -/
theorem c4_success_iff (c : OrderCall) (hc : c.valid) (env : Env) :
    successIff (dispatch c env st0) := by
  rw [dispatch_valid_eq c hc]
  exact successIff_guarded _ _ (safeA_setupOfCall c) env

/-- C4 (counterexample): with `buffer = -2`, `marketable_limit_order`
returns neither `True` nor `False` — it raises. -/
theorem c4_counterexample :
    (marketable_limit_order "a" "s" .SELL .SHARES "1" (-2) env0 st0).1 ≠ .ok false ∧
      (marketable_limit_order "a" "s" .SELL .SHARES "1" (-2) env0 st0).1 ≠ .ok true := by
  have h : (marketable_limit_order "a" "s" .SELL .SHARES "1" (-2) env0 st0).1
      = .error (.valueError DRIVER_MARKETABLE_LIMIT_ORDER_BUFFER) := rfl
  rw [h]
  exact ⟨fun hcontra => Except.noConfusion hcontra, fun hcontra => Except.noConfusion hcontra⟩

/-- C4 (witness): the success contract at a concrete GTC order. -/
theorem c4_witness :
    (OrderCall.gtc "a" "s" .BUY "5" "1.00").valid ∧
      successIff (dispatch (.gtc "a" "s" .BUY "5" "1.00") env0 st0) :=
  ⟨trivial, c4_success_iff (.gtc "a" "s" .BUY "5" "1.00") trivial env0⟩

/-- C8 (counterexample): the `Driver` does not have eight
order-placement methods. -/
theorem c8_counterexample : orderMethodNames.length ≠ 8 := by decide

/-- C8 (amended): the `Driver` provides exactly seven order-placement
methods, each returning a boolean success flag, and (with validated
arguments) each is its own field-setting prefix — which asks no prompt
and clicks neither order button — followed by the common
`__place_order` sequence under the common catch boundary. -/
theorem c8_seven_methods :
    orderMethodNames.length = 7 ∧ orderMethodNames.Nodup ∧
      (∀ n : OrderMethodName, n ∈ orderMethodNames) ∧
      (∀ c : OrderCall, c.valid →
        dispatch c = guarded (msgOfCall c) (DM.bind (setupOfCall c) (fun _ => place_order))
          ∧ SafeA (setupOfCall c)) := by
  refine ⟨rfl, by decide, fun n => by cases n <;> decide, fun c hc => ?_⟩
  exact ⟨dispatch_valid_eq c hc, safeA_setupOfCall c⟩

/-- C8 (witness): the common structure at a concrete mutual-fund sell. -/
theorem c8_witness :
    dispatch (.sellMF "a" "s" .SHARES "5")
        = guarded (msgOfCall (.sellMF "a" "s" .SHARES "5"))
          (DM.bind (setupOfCall (.sellMF "a" "s" .SHARES "5")) (fun _ => place_order))
      ∧ SafeA (setupOfCall (.sellMF "a" "s" .SHARES "5")) :=
  c8_seven_methods.2.2.2 (.sellMF "a" "s" .SHARES "5") trivial

theorem reraisePassthrough_reraise (msg : String) (body : DM α) :
    reraisePassthrough msg body (reraise msg body) := by
  intro env st
  refine ⟨?_, ?_, ?_⟩
  · rcases hres : body env st with ⟨r, st1⟩
    cases r <;> simp [reraise, hres]
  · intro a st1 h
    simp [reraise, h]
  · intro e st1 h
    simp [reraise, h]

/-- C3: each read operation (`cash_available_to_trade`, `quote`,
`download_positions`) returns exactly what its try-block returns — on
failure the exception is logged and re-raised unchanged, and no value is
produced; on success the value passes through untouched. -/
theorem c3_reads_reraise :
    (∀ account, reraisePassthrough CASH_FAILED (cash_available_to_trade_body account)
      (cash_available_to_trade account)) ∧
    (∀ symbol, reraisePassthrough QUOTE_FAILED (quote_body symbol) (quote symbol)) ∧
    reraisePassthrough POSITIONS_FAILED download_positions_body download_positions :=
  ⟨fun _ => reraisePassthrough_reraise _ _, fun _ => reraisePassthrough_reraise _ _,
    reraisePassthrough_reraise _ _⟩

/-- C3 (witness): with every browser step failing, the cash read logs
and re-raises the underlying error, returning no value. -/
theorem c3_witness :
    cash_available_to_trade "a" envFail st0
        = (.error (.webDriver 0), ⟨1, 0, [.logged CASH_FAILED]⟩) ∧
      (cash_available_to_trade "a" envFail st0).1
        = (cash_available_to_trade_body "a" envFail st0).1 :=
  ⟨rfl, ((c3_reads_reraise.1 "a") envFail st0).1⟩

/-- C7: `Driver.__enter__` navigates to the login page (and returns the
driver), and `Driver.__exit__` releases the session by navigating to the
logout URL and then quitting the browser, in that order; if the logout
navigation raises, the browser is not quit. -/
theorem c7_session_scope :
    (∀ env st, (enterDriver env st).1.isOk = true →
      (enterDriver env st).2.trace = st.trace ++ [.navigate LOGIN_URL]) ∧
    (∀ env st, (exitDriver env st).1.isOk = true →
      (exitDriver env st).2.trace = st.trace ++ [.navigate LOGOUT_URL, .quitBrowser]) ∧
    (∀ env st, env.fails st.k = true →
      (exitDriver env st).2.trace = st.trace ∧ (exitDriver env st).1.isOk = false) := by
  refine ⟨?_, ?_, ?_⟩
  · intro env st h
    by_cases hf : env.fails st.k
    · simp [enterDriver, navigate, hf, Except.isOk, Except.toBool] at h
    · simp [enterDriver, navigate, hf]
  · intro env st h
    by_cases hf1 : env.fails st.k
    · simp [exitDriver, bind_def, DM.bind, navigate, hf1, Except.isOk, Except.toBool] at h
    · by_cases hf2 : env.fails (st.k + 1)
      · simp [exitDriver, bind_def, DM.bind, navigate, quitB, hf1, hf2,
          Except.isOk, Except.toBool] at h
      · simp [exitDriver, bind_def, DM.bind, navigate, quitB, hf1, hf2,
          List.append_assoc]
  · intro env st h
    constructor <;>
      simp [exitDriver, bind_def, DM.bind, navigate, h, Except.isOk, Except.toBool]

/-- C7 (witness): a concrete session scope where every step succeeds,
and one where the logout navigation fails. -/
theorem c7_witness :
    (enterDriver env0 st0).2.trace = st0.trace ++ [.navigate LOGIN_URL] ∧
      (exitDriver env0 st0).2.trace = st0.trace ++ [.navigate LOGOUT_URL, .quitBrowser] ∧
      (exitDriver envFail st0).2.trace = st0.trace :=
  ⟨c7_session_scope.1 env0 st0 rfl, c7_session_scope.2.1 env0 st0 rfl,
    (c7_session_scope.2.2 envFail st0 rfl).1⟩

/-! ## Where the marketable limit price comes from -/

theorem addsNo_bind {x : DM α} {f : α → DM β} (hx : AddsNoLimitKeys x)
    (hf : ∀ a, AddsNoLimitKeys (f a)) : AddsNoLimitKeys (DM.bind x f) := by
  intro env st
  obtain ⟨xs, hxs, hno⟩ := hx env st
  rcases hres : x env st with ⟨r, st1⟩
  rw [hres] at hxs
  simp only at hxs
  cases r with
  | error e => exact ⟨xs, by simp [DM.bind, hres, hxs], hno⟩
  | ok a =>
    obtain ⟨ys, hys, hno2⟩ := hf a env st1
    refine ⟨xs ++ ys, ?_, ?_⟩
    · simp only [DM.bind, hres]
      rw [hys, hxs, List.append_assoc]
    · intro t ht
      rcases List.mem_append.1 ht with h | h
      · exact hno t h
      · exact hno2 t h

theorem addsNo_navigate (url : String) : AddsNoLimitKeys (navigate url) := by
  intro env st
  by_cases h : env.fails st.k
  · exact ⟨[], by simp [navigate, h], by simp⟩
  · exact ⟨[.navigate url], by simp [navigate, h], by simp⟩

theorem addsNo_clickSel (selector : String) : AddsNoLimitKeys (clickSel selector) := by
  intro env st
  by_cases h : env.fails st.k
  · exact ⟨[], by simp [clickSel, h], by simp⟩
  · exact ⟨[.click selector], by simp [clickSel, h], by simp⟩

theorem addsNo_clickText (label : String) : AddsNoLimitKeys (clickText label) := by
  intro env st
  by_cases h : env.fails st.k
  · exact ⟨[], by simp [clickText, h], by simp⟩
  · exact ⟨[.clickText label], by simp [clickText, h], by simp⟩

theorem addsNo_fieldClear (id : String) : AddsNoLimitKeys (fieldClear id) := by
  intro env st
  by_cases h : env.fails st.k
  · exact ⟨[], by simp [fieldClear, h], by simp⟩
  · exact ⟨[.clearField id], by simp [fieldClear, h], by simp⟩

theorem addsNo_fieldKeys (id text : String) (hid : id ≠ LIMIT_FIELD_ID) :
    AddsNoLimitKeys (fieldKeys id text) := by
  intro env st
  by_cases h : env.fails st.k
  · exact ⟨[], by simp [fieldKeys, h], by simp⟩
  · refine ⟨[.sendKeys id text], by simp [fieldKeys, h], ?_⟩
    intro t ht
    simp at ht
    exact hid ht.1.symm

theorem addsNo_readText (selector : String) : AddsNoLimitKeys (readText selector) := by
  intro env st
  by_cases h : env.fails st.k
  · exact ⟨[], by simp [readText, h], by simp⟩
  · exact ⟨[.readText selector (env.text st.k)], by simp [readText, h], by simp⟩

theorem addsNo_readTexts (selector : String) : AddsNoLimitKeys (readTexts selector) := by
  intro env st
  by_cases h : env.fails st.k
  · exact ⟨[], by simp [readTexts, h], by simp⟩
  · exact ⟨[.readList selector (env.texts st.k)], by simp [readTexts, h], by simp⟩

theorem addsNo_sleepD : AddsNoLimitKeys sleepD := by
  intro env st
  exact ⟨[.slept], by simp [sleepD, St.push], by simp⟩

theorem addsNo_liftE (x : Except PyErr α) : AddsNoLimitKeys (liftE x) := by
  intro env st
  exact ⟨[], by simp [liftE], by simp⟩

theorem addsNo_pure (a : α) : AddsNoLimitKeys (DM.pure a) := by
  intro env st
  exact ⟨[], by simp [DM.pure], by simp⟩

theorem addsNo_raiseErr (e : PyErr) : AddsNoLimitKeys (raiseErr e : DM α) := by
  intro env st
  exact ⟨[], by simp [raiseErr], by simp⟩

theorem addsNo_set_symbol (id symbol : String) (hid : id ≠ LIMIT_FIELD_ID) :
    AddsNoLimitKeys (set_symbol id symbol) := by
  unfold set_symbol
  simp only [bind_def]
  exact addsNo_bind (addsNo_fieldClear _)
    (fun _ => addsNo_bind (addsNo_fieldKeys _ _ hid) (fun _ => addsNo_fieldKeys _ _ hid))

theorem addsNo_stock_set_action (action : Action) :
    AddsNoLimitKeys (stock_set_action action) := by
  cases action
  · exact addsNo_clickSel _
  · exact addsNo_clickSel _

theorem addsNo_stock_set_unit (unit : Unit) : AddsNoLimitKeys (stock_set_unit unit) := by
  cases unit
  · exact addsNo_clickSel _
  · exact addsNo_clickSel _

theorem addsNo_stock_set_quantity (quantity : String) :
    AddsNoLimitKeys (stock_set_quantity quantity) := by
  unfold stock_set_quantity set_quantity
  simp only [bind_def]
  exact addsNo_bind (addsNo_fieldClear _) (fun _ => addsNo_fieldKeys _ _ (by decide))

/-- `mapCents` returning a two-element list forces a two-element
input, each parsing to the respective cents value. -/
theorem mapCents_pair (ss : List String) (b a : Int)
    (h : mapCents ss = .ok [b, a]) :
    ∃ sb sa, ss = [sb, sa] ∧ _cents sb = .ok b ∧ _cents sa = .ok a := by
  match ss with
  | [] => simp [mapCents] at h
  | [s1] =>
    rcases h1 : _cents s1 with e | c1 <;> simp [mapCents, h1] at h
  | [s1, s2] =>
    rcases h1 : _cents s1 with e | c1 <;> rcases h2 : _cents s2 with e2 | c2 <;>
      simp [mapCents, h1, h2] at h
    exact ⟨s1, s2, rfl, by rw [h1, h.1], by rw [h2, h.2]⟩
  | s1 :: s2 :: s3 :: rest =>
    rcases h1 : _cents s1 with e | c1 <;> rcases h2 : _cents s2 with e2 | c2 <;>
      rcases h3 : _cents s3 with e3 | c3 <;> rcases hr : mapCents rest with er | cr <;>
      simp [mapCents, h1, h2, h3, hr] at h

/-- The two runs of `__stock_bid_ask`: an exception (having read at most
the raw number texts), or two parsed cent values coming from exactly two
scraped texts. -/
theorem stock_bid_ask_run (env : Env) (st : St) :
    (∃ e st1, stock_bid_ask env st = (.error e, st1) ∧
      (st1.trace = st.trace ∨
        ∃ ss, st1.trace = st.trace ++ [.readList NUMBER_SEL ss])) ∨
    (∃ b a sb sa, stock_bid_ask env st
        = (.ok (b, a), ⟨st.k + 1, st.p, st.trace ++ [.readList NUMBER_SEL [sb, sa]]⟩)
      ∧ env.texts st.k = [sb, sa] ∧ _cents sb = .ok b ∧ _cents sa = .ok a) := by
  by_cases hf : env.fails st.k
  · refine Or.inl ⟨.webDriver st.k, { st with k := st.k + 1 }, ?_, Or.inl rfl⟩
    simp [stock_bid_ask, bind_def, DM.bind, readTexts, hf]
  · rcases hm : mapCents (env.texts st.k) with e | cs
    · refine Or.inl ⟨e,
        ⟨st.k + 1, st.p, st.trace ++ [.readList NUMBER_SEL (env.texts st.k)]⟩, ?_,
        Or.inr ⟨env.texts st.k, rfl⟩⟩
      simp [stock_bid_ask, bind_def, DM.bind, readTexts, liftE, hf, hm]
    · rcases cs with _ | ⟨b, _ | ⟨a, _ | ⟨c, rest⟩⟩⟩
      · refine Or.inl ⟨.runtimeError BID_ASK_FAILED,
          ⟨st.k + 1, st.p, st.trace ++ [.readList NUMBER_SEL (env.texts st.k)]⟩, ?_,
          Or.inr ⟨env.texts st.k, rfl⟩⟩
        simp [stock_bid_ask, bind_def, DM.bind, readTexts, liftE, raiseErr, hf, hm]
      · refine Or.inl ⟨.runtimeError BID_ASK_FAILED,
          ⟨st.k + 1, st.p, st.trace ++ [.readList NUMBER_SEL (env.texts st.k)]⟩, ?_,
          Or.inr ⟨env.texts st.k, rfl⟩⟩
        simp [stock_bid_ask, bind_def, DM.bind, readTexts, liftE, raiseErr, hf, hm]
      · obtain ⟨sb, sa, hss, hcb, hca⟩ := mapCents_pair _ _ _ hm
        refine Or.inr ⟨b, a, sb, sa, ?_, hss, hcb, hca⟩
        rw [hss] at hm
        simp [stock_bid_ask, bind_def, pure_def, DM.bind, DM.pure, readTexts, liftE,
          hf, hss, hm]
      · refine Or.inl ⟨.runtimeError BID_ASK_FAILED,
          ⟨st.k + 1, st.p, st.trace ++ [.readList NUMBER_SEL (env.texts st.k)]⟩, ?_,
          Or.inr ⟨env.texts st.k, rfl⟩⟩
        simp [stock_bid_ask, bind_def, DM.bind, readTexts, liftE, raiseErr, hf, hm]

/-- Whatever `__stock_set_limit` manages to do, the only text it can
type into the limit field is its `limit` argument. -/
theorem stock_set_limit_run (limit : String) (env : Env) (st : St) :
    ∃ zs, (stock_set_limit limit env st).2.trace = st.trace ++ zs ∧
      ∀ t, Event.sendKeys LIMIT_FIELD_ID t ∈ zs → t = limit := by
  by_cases h1 : env.fails st.k
  · exact ⟨[], by simp [stock_set_limit, bind_def, DM.bind, clickSel, h1], by simp⟩
  · by_cases h2 : env.fails (st.k + 1)
    · exact ⟨[.click MARKET_NO_SEL],
        by simp [stock_set_limit, bind_def, DM.bind, clickSel, fieldClear, h1, h2],
        by simp⟩
    · by_cases h3 : env.fails (st.k + 2)
      · exact ⟨[.click MARKET_NO_SEL, .clearField LIMIT_FIELD_ID],
          by simp [stock_set_limit, bind_def, DM.bind, clickSel, fieldClear, fieldKeys,
            h1, h2, h3, List.append_assoc],
          by simp⟩
      · refine ⟨[.click MARKET_NO_SEL, .clearField LIMIT_FIELD_ID,
          .sendKeys LIMIT_FIELD_ID limit],
          by simp [stock_set_limit, bind_def, DM.bind, clickSel, fieldClear, fieldKeys,
            h1, h2, h3, List.append_assoc], ?_⟩
        intro t ht
        simp at ht
        exact ht

/-- A guarded order run only appends prompt, click, sleep and log events
after its setup's trace: no keystroke events. -/
theorem guarded_place_trace_ext (msg : String) (s : DM PUnit) (env : Env) (st : St) :
    ∃ ys, (guarded msg (DM.bind s (fun _ => place_order)) env st).2.trace
        = (s env st).2.trace ++ ys ∧ ∀ i t, Event.sendKeys i t ∉ ys := by
  rcases hres : s env st with ⟨r, st1⟩
  obtain ⟨k1, p1, tr1⟩ := st1
  cases r with
  | error e =>
    exact ⟨[.logged msg], by simp [guarded, DM.bind, hres, St.push], by simp⟩
  | ok a =>
    have hpl := place_order_cases env k1 p1 tr1
    rcases hpl with ⟨hf1, heq⟩ | ⟨hf1, ha, heq⟩ | ⟨hf1, ha, hf2, heq⟩ | ⟨hf1, ha, hf2, heq⟩
    · exact ⟨[.slept, .logged msg],
        by simp [guarded, DM.bind, hres, heq, St.push, List.append_assoc], by simp⟩
    · exact ⟨[.slept, .click PREVIEW_BTN, .prompted PLACE_PROMPT_FULL (env.answer p1)],
        by simp [guarded, DM.bind, hres, heq], by simp⟩
    · exact ⟨[.slept, .click PREVIEW_BTN, .prompted PLACE_PROMPT_FULL (env.answer p1),
        .logged msg],
        by simp [guarded, DM.bind, hres, heq, St.push, List.append_assoc], by simp⟩
    · exact ⟨successTail (env.answer p1) (env.answer (p1 + 1)),
        by simp [guarded, DM.bind, hres, heq], by simp [successTail]⟩

theorem addsNo_extend (x : DM α) (hx : AddsNoLimitKeys x) (env : Env)
    {A : List Event} {st base : St} (hb : st.trace = base.trace ++ A)
    (hnoA : ∀ t, Event.sendKeys LIMIT_FIELD_ID t ∉ A) :
    ∃ B, (x env st).2.trace = base.trace ++ B ∧
      ∀ t, Event.sendKeys LIMIT_FIELD_ID t ∉ B := by
  obtain ⟨xs, hxs, hno⟩ := hx env st
  refine ⟨A ++ xs, by rw [hxs, hb, List.append_assoc], ?_⟩
  intro t ht
  rcases List.mem_append.1 ht with h | h
  · exact hnoA t h
  · exact hno t h

theorem limit_origin_mem_base {base : St} {tr A : List Event}
    (htr : tr = base.trace ++ A) (hnoA : ∀ t, Event.sendKeys LIMIT_FIELD_ID t ∉ A)
    {t : String} (ht : Event.sendKeys LIMIT_FIELD_ID t ∈ tr) :
    Event.sendKeys LIMIT_FIELD_ID t ∈ base.trace := by
  subst htr
  rcases List.mem_append.1 ht with h | h
  · exact h
  · exact absurd h (hnoA t)

/-- Any text typed into the limit field during the marketable-limit
setup is `_dollars` of `ask + buffer` (buy) or `bid - buffer` (sell),
where `bid` and `ask` are the scraped numbers converted to cents. -/
theorem setup_limit_origin (account symbol : String) (action : Action) (unit : Unit)
    (quantity : String) (buffer : Int) (env : Env) (st : St) (t : String)
    (ht : Event.sendKeys LIMIT_FIELD_ID t
      ∈ ((marketable_limit_order_setup account symbol action unit quantity buffer)
          env st).2.trace) :
    Event.sendKeys LIMIT_FIELD_ID t ∈ st.trace ∨
      ∃ sb sa b a,
        Event.readList NUMBER_SEL [sb, sa]
            ∈ ((marketable_limit_order_setup account symbol action unit quantity buffer)
                env st).2.trace
          ∧ _cents sb = .ok b ∧ _cents sa = .ok a
          ∧ marketable_limit action b a buffer = .ok t := by
  simp only [marketable_limit_order_setup, bind_def] at ht ⊢
  rcases h1 : stock_set_account account env st with ⟨r1, st1⟩
  obtain ⟨A1, hA1, hno1⟩ := addsNo_extend (stock_set_account account)
    (addsNo_navigate _) env (List.append_nil st.trace).symm
    (fun t2 ht2 => absurd ht2 (List.not_mem_nil _))
  rw [h1] at hA1
  simp only at hA1
  simp only [DM.bind, h1] at ht ⊢
  cases r1 with
  | error e => exact Or.inl (limit_origin_mem_base hA1 hno1 ht)
  | ok u1 =>
  rcases h2 : stock_set_symbol symbol env st1 with ⟨r2, st2⟩
  obtain ⟨A2, hA2, hno2⟩ := addsNo_extend (stock_set_symbol symbol)
    (addsNo_set_symbol SYMBOL_ID symbol (by decide)) env hA1 hno1
  rw [h2] at hA2
  simp only at hA2
  simp only [DM.bind, h2] at ht ⊢
  cases r2 with
  | error e => exact Or.inl (limit_origin_mem_base hA2 hno2 ht)
  | ok u2 =>
  rcases h3 : stock_set_action action env st2 with ⟨r3, st3⟩
  obtain ⟨A3, hA3, hno3⟩ := addsNo_extend (stock_set_action action)
    (addsNo_stock_set_action action) env hA2 hno2
  rw [h3] at hA3
  simp only at hA3
  simp only [DM.bind, h3] at ht ⊢
  cases r3 with
  | error e => exact Or.inl (limit_origin_mem_base hA3 hno3 ht)
  | ok u3 =>
  rcases h4 : stock_set_unit unit env st3 with ⟨r4, st4⟩
  obtain ⟨A4, hA4, hno4⟩ := addsNo_extend (stock_set_unit unit)
    (addsNo_stock_set_unit unit) env hA3 hno3
  rw [h4] at hA4
  simp only at hA4
  simp only [DM.bind, h4] at ht ⊢
  cases r4 with
  | error e => exact Or.inl (limit_origin_mem_base hA4 hno4 ht)
  | ok u4 =>
  rcases h5 : stock_set_quantity quantity env st4 with ⟨r5, st5⟩
  obtain ⟨A5, hA5, hno5⟩ := addsNo_extend (stock_set_quantity quantity)
    (addsNo_stock_set_quantity quantity) env hA4 hno4
  rw [h5] at hA5
  simp only at hA5
  simp only [DM.bind, h5] at ht ⊢
  cases r5 with
  | error e => exact Or.inl (limit_origin_mem_base hA5 hno5 ht)
  | ok u5 =>
  rcases stock_bid_ask_run env st5 with ⟨e6, st6, h6, htr6⟩ | ⟨b, a, sb, sa, h6, hss, hcb, hca⟩
  · simp only [DM.bind, h6] at ht ⊢
    rcases htr6 with htr6 | ⟨ss, htr6⟩
    · exact Or.inl (limit_origin_mem_base (htr6 ▸ hA5) hno5 ht)
    · rw [htr6, hA5, List.append_assoc] at ht
      refine Or.inl (limit_origin_mem_base rfl ?_ ht)
      intro t2 ht2
      rcases List.mem_append.1 ht2 with h | h
      · exact hno5 t2 h
      · simp at h
  · simp only [DM.bind, h6] at ht ⊢
    rcases hml : marketable_limit action b a buffer with e7 | limit
    · simp only [DM.bind, liftE, hml] at ht ⊢
      rw [hA5, List.append_assoc] at ht
      refine Or.inl (limit_origin_mem_base rfl ?_ ht)
      intro t2 ht2
      rcases List.mem_append.1 ht2 with h | h
      · exact hno5 t2 h
      · simp at h
    · simp only [DM.bind, liftE, hml] at ht ⊢
      obtain ⟨zs, hzs, hlim⟩ := stock_set_limit_run limit env
        ⟨st5.k + 1, st5.p, st5.trace ++ [.readList NUMBER_SEL [sb, sa]]⟩
      rw [hzs] at ht ⊢
      simp only at ht ⊢
      rcases List.mem_append.1 ht with hmem | hmem
      · rw [hA5, List.append_assoc] at hmem
        rcases List.mem_append.1 hmem with h | h
        · exact Or.inl h
        · rcases List.mem_append.1 h with h' | h'
          · exact absurd h' (hno5 t)
          · simp at h'
      · have hteq : t = limit := hlim t hmem
        subst hteq
        refine Or.inr ⟨sb, sa, b, a, ?_, hcb, hca, hml⟩
        refine List.mem_append.2 (Or.inl ?_)
        simp

theorem _dollars_ok_shape {c : Int} {t : String} (h : _dollars c = .ok t) :
    t = formatCents c := by
  unfold _dollars at h
  split at h
  · exact Except.noConfusion h
  · injection h with h
    exact h.symm

theorem formatCents_two_decimals (c : Int) :
    ∃ pre d1 d2, (formatCents c).data = pre ++ ['.', d1, d2] := by
  refine ⟨(if c < 0 then ['-'] else []) ++ (natDigitList (c.natAbs / 100)).map digitChar,
    digitChar (c.natAbs % 100 / 10), digitChar (c.natAbs % 100 % 10), ?_⟩
  simp [formatCents, List.append_assoc]

/-- C9: whenever `marketable_limit_order` types a limit price `t` into
the limit field, the displayed bid and ask were scraped and converted to
integer cents `b` and `a`, and `t` is `_dollars(a + buffer)` for a BUY
and `_dollars(b - buffer)` for a SELL — a dollar string ending in a
point and two decimal digits. -/
theorem c9_marketable_limit_price (account symbol : String) (action : Action)
    (unit : Unit) (quantity : String) (buffer : Int) (env : Env) (t : String)
    (ht : Event.sendKeys LIMIT_FIELD_ID t
      ∈ (marketable_limit_order account symbol action unit quantity buffer env st0).2.trace) :
    ∃ sb sa b a,
      Event.readList NUMBER_SEL [sb, sa]
          ∈ (marketable_limit_order account symbol action unit quantity buffer env st0).2.trace
        ∧ _cents sb = .ok b ∧ _cents sa = .ok a
        ∧ marketable_limit action b a buffer = .ok t
        ∧ ∃ pre d1 d2, t.data = pre ++ ['.', d1, d2] := by
  by_cases hb : buffer < 0
  · exfalso
    have hrun : marketable_limit_order account symbol action unit quantity buffer env st0
        = (.error (.valueError DRIVER_MARKETABLE_LIMIT_ORDER_BUFFER), st0) := by
      simp only [marketable_limit_order, bind_def, _validate_action_eq, _validate_unit_eq,
        DM.bind_pure_left, hb, if_true]
      rfl
    rw [hrun] at ht
    simp [st0] at ht
  · have heqd : marketable_limit_order account symbol action unit quantity buffer
        = guarded MARKETABLE_LIMIT_ORDER_FAILED
            (DM.bind (marketable_limit_order_setup account symbol action unit quantity buffer)
              (fun _ => place_order)) := by
      have h := dispatch_valid_eq (.marketableLimit account symbol action unit quantity buffer)
        (by simp only [OrderCall.valid]; omega)
      simpa only [dispatch, msgOfCall, bodyOfCall, setupOfCall] using h
    rw [heqd] at ht ⊢
    obtain ⟨ys, hys, hnoys⟩ := guarded_place_trace_ext MARKETABLE_LIMIT_ORDER_FAILED
      (marketable_limit_order_setup account symbol action unit quantity buffer) env st0
    rw [hys] at ht ⊢
    rcases List.mem_append.1 ht with hts | hts
    · rcases setup_limit_origin account symbol action unit quantity buffer env st0 t hts
        with h0 | ⟨sb, sa, b, a, hmem, hcb, hca, hml⟩
      · simp [st0] at h0
      · refine ⟨sb, sa, b, a, List.mem_append.2 (Or.inl hmem), hcb, hca, hml, ?_⟩
        have hshape : t = formatCents (match action with
            | .BUY => a + buffer
            | .SELL => b - buffer) := by
          cases action with
          | BUY => exact _dollars_ok_shape hml
          | SELL => exact _dollars_ok_shape hml
        rw [hshape]
        exact formatCents_two_decimals _
    · exact absurd hts (hnoys LIMIT_FIELD_ID t)

/-- C9 (witness): with bid `1.00` and ask `2.00` on the page and a
10-cent buffer, a BUY run types `2.10` into the limit field, and the
theorem traces it back to `_dollars(200 + 10)`. -/
theorem c9_witness :
    (Event.sendKeys LIMIT_FIELD_ID "2.10"
        ∈ (marketable_limit_order "a" "s" .BUY .SHARES "1" 10 env0 st0).2.trace) ∧
      ∃ sb sa b a,
        Event.readList NUMBER_SEL [sb, sa]
            ∈ (marketable_limit_order "a" "s" .BUY .SHARES "1" 10 env0 st0).2.trace
          ∧ _cents sb = .ok b ∧ _cents sa = .ok a
          ∧ marketable_limit .BUY b a 10 = .ok "2.10"
          ∧ ∃ pre d1 d2, ("2.10" : String).data = pre ++ ['.', d1, d2] :=
  ⟨by decide, c9_marketable_limit_price "a" "s" .BUY .SHARES "1" 10 env0 "2.10" (by decide)⟩

/-! ## The quote as a value -/

theorem except_bind_ok (a : α) (f : α → Except PyErr β) :
    (Except.ok a >>= f) = f a := rfl

theorem except_bind_err (e : PyErr) (f : α → Except PyErr β) :
    ((Except.error e : Except PyErr α) >>= f) = .error e := rfl

theorem except_pure (a : α) : (pure a : Except PyErr α) = .ok a := rfl

/-- A successful `quote` run returns exactly the `Quote` built by the
pure parsing pipeline from the five texts scraped at reads 4 to 8. -/
theorem quote_body_ok_fields (symbol : String) (env : Env) (st : St) (q : Quote)
    (st1 : St) (h : quote_body symbol env st = (.ok q, st1)) :
    q.symbol = symbol ∧
      quoteOfPage symbol (env.text (st.k + 4)) (env.text (st.k + 5))
        (env.texts (st.k + 6)) (env.texts (st.k + 7)) (env.text (st.k + 8)) = .ok q := by
  simp only [quote_body, stock_set_symbol, set_symbol, bind_def, pure_def] at h
  by_cases hf0 : env.fails st.k
  · simp [DM.bind, navigate, hf0] at h
  simp [DM.bind, navigate, hf0, if_false] at h
  by_cases hf1 : env.fails (st.k + 1)
  · simp [DM.bind, fieldClear, hf1] at h
  simp [DM.bind, fieldClear, hf1, if_false] at h
  by_cases hf2 : env.fails (st.k + 1 + 1)
  · simp [DM.bind, fieldKeys, hf2] at h
  simp [DM.bind, fieldKeys, hf2, if_false] at h
  by_cases hf3 : env.fails (st.k + 1 + 1 + 1)
  · simp [DM.bind, fieldKeys, hf3] at h
  simp [DM.bind, fieldKeys, hf3, if_false] at h
  by_cases hf4 : env.fails (st.k + 1 + 1 + 1 + 1)
  · simp [DM.bind, readText, hf4] at h
  simp [DM.bind, readText, hf4, if_false] at h
  by_cases hf5 : env.fails (st.k + 1 + 1 + 1 + 1 + 1)
  · simp [DM.bind, readText, hf5] at h
  simp [DM.bind, readText, hf5, if_false] at h
  rcases hlast : _decimal (env.text (st.k + 1 + 1 + 1 + 1 + 1)) with e | last
  · simp [DM.bind, liftE, hlast] at h
  simp [DM.bind, liftE, hlast] at h
  by_cases hf6 : env.fails (st.k + 1 + 1 + 1 + 1 + 1 + 1)
  · simp [DM.bind, readTexts, hf6] at h
  simp [DM.bind, readTexts, hf6, if_false] at h
  rcases hc0 : indexE (env.texts (st.k + 1 + 1 + 1 + 1 + 1 + 1)) 0 with e | c0
  · simp [DM.bind, liftE, hc0] at h
  simp [DM.bind, liftE, hc0] at h
  rcases hdollar : _decimal c0 with e | dollar
  · simp [DM.bind, liftE, hdollar] at h
  simp [DM.bind, liftE, hdollar] at h
  rcases hc1 : indexE (env.texts (st.k + 1 + 1 + 1 + 1 + 1 + 1)) 1 with e | c1
  · simp [DM.bind, liftE, hc1] at h
  simp [DM.bind, liftE, hc1] at h
  rcases hpercent : _decimal c1 with e | percent
  · simp [DM.bind, liftE, hpercent] at h
  simp [DM.bind, liftE, hpercent] at h
  by_cases hf7 : env.fails (st.k + 1 + 1 + 1 + 1 + 1 + 1 + 1)
  · simp [DM.bind, readTexts, hf7] at h
  simp [DM.bind, readTexts, hf7, if_false] at h
  rcases hb0 : indexE (env.texts (st.k + 1 + 1 + 1 + 1 + 1 + 1 + 1)) 0 with e | b0
  · simp [DM.bind, liftE, hb0] at h
  simp [DM.bind, liftE, hb0] at h
  rcases hp00 : indexE (pySplitX b0) 0 with e | p00
  · simp [DM.bind, liftE, hp00] at h
  simp [DM.bind, liftE, hp00] at h
  rcases hbid : _decimal p00 with e | bid
  · simp [DM.bind, liftE, hbid] at h
  simp [DM.bind, liftE, hbid] at h
  rcases hp01 : indexE (pySplitX b0) 1 with e | p01
  · simp [DM.bind, liftE, hp01] at h
  simp [DM.bind, liftE, hp01] at h
  rcases hbidsize : _int p01 with e | bidSize
  · simp [DM.bind, liftE, hbidsize] at h
  simp [DM.bind, liftE, hbidsize] at h
  rcases hb1 : indexE (env.texts (st.k + 1 + 1 + 1 + 1 + 1 + 1 + 1)) 1 with e | b1
  · simp [DM.bind, liftE, hb1] at h
  simp [DM.bind, liftE, hb1] at h
  rcases hp10 : indexE (pySplitX b1) 0 with e | p10
  · simp [DM.bind, liftE, hp10] at h
  simp [DM.bind, liftE, hp10] at h
  rcases hask : _decimal p10 with e | ask
  · simp [DM.bind, liftE, hask] at h
  simp [DM.bind, liftE, hask] at h
  rcases hp11 : indexE (pySplitX b1) 1 with e | p11
  · simp [DM.bind, liftE, hp11] at h
  simp [DM.bind, liftE, hp11] at h
  rcases hasksize : _int p11 with e | askSize
  · simp [DM.bind, liftE, hasksize] at h
  simp [DM.bind, liftE, hasksize] at h
  by_cases hf8 : env.fails (st.k + 1 + 1 + 1 + 1 + 1 + 1 + 1 + 1)
  · simp [DM.bind, readText, hf8] at h
  simp [DM.bind, readText, hf8, if_false] at h
  rcases hvol : _int (env.text (st.k + 1 + 1 + 1 + 1 + 1 + 1 + 1 + 1)) with e | volume
  · simp [DM.bind, liftE, hvol] at h
  simp [DM.bind, liftE, hvol, DM.pure, Prod.mk.injEq, Except.ok.injEq] at h
  obtain ⟨hq, hst⟩ := h
  subst hq
  have e4 : st.k + 1 + 1 + 1 + 1 = st.k + 4 := by omega
  have e5 : st.k + 1 + 1 + 1 + 1 + 1 = st.k + 5 := by omega
  have e6 : st.k + 1 + 1 + 1 + 1 + 1 + 1 = st.k + 6 := by omega
  have e7 : st.k + 1 + 1 + 1 + 1 + 1 + 1 + 1 = st.k + 7 := by omega
  have e8 : st.k + 1 + 1 + 1 + 1 + 1 + 1 + 1 + 1 = st.k + 8 := by omega
  rw [e5] at hlast
  rw [e6] at hc0 hc1
  rw [e7] at hb0 hb1
  rw [e8] at hvol
  refine ⟨rfl, ?_⟩
  simp only [quoteOfPage, hlast, hc0, hdollar, hc1, hpercent, hb0, hp00, hbid, hp01,
    hbidsize, hb1, hp10, hask, hp11, hasksize, hvol, except_bind_ok, except_pure]

/-- C5: a `Quote` is a plain value: two quotes are equal exactly when
all ten fields are equal (the frozen dataclass `__eq__`), and every
successful `quote()` call returns a freshly constructed `Quote` whose
fields are exactly the requested symbol plus the values parsed from the
page texts scraped during that very call. -/
theorem c5_quote_value_semantics :
    (∀ q1 q2 : Quote, q1 = q2 ↔
      (q1.symbol = q2.symbol ∧ q1.name = q2.name ∧ q1.last_price = q2.last_price ∧
       q1.dollar_change = q2.dollar_change ∧ q1.percent_change = q2.percent_change ∧
       q1.bid = q2.bid ∧ q1.bid_size = q2.bid_size ∧ q1.ask = q2.ask ∧
       q1.ask_size = q2.ask_size ∧ q1.volume = q2.volume)) ∧
    (∀ symbol env st q st2, quote symbol env st = (.ok q, st2) →
      q.symbol = symbol ∧
        quoteOfPage symbol (env.text (st.k + 4)) (env.text (st.k + 5))
          (env.texts (st.k + 6)) (env.texts (st.k + 7)) (env.text (st.k + 8)) = .ok q) := by
  constructor
  · intro q1 q2
    constructor
    · intro h
      subst h
      exact ⟨rfl, rfl, rfl, rfl, rfl, rfl, rfl, rfl, rfl, rfl⟩
    · intro h
      cases q1
      cases q2
      simp_all
  · intro symbol env st q st2 h
    rcases hbody : quote_body symbol env st with ⟨r, st1⟩
    cases r with
    | error e =>
      exfalso
      simp [quote, reraise, hbody] at h
    | ok a =>
      have haq : a = q := by
        simp [quote, reraise, hbody] at h
        exact h.1
      subst haq
      exact quote_body_ok_fields symbol env st a st1 hbody

/-- C5 (witness): a concrete quote run against `envQ` yields exactly
`quoteX`, built from the scraped texts. -/
theorem c5_witness :
    quote "X" envQ st0 = (.ok quoteX, stX) ∧
      quoteX.symbol = "X" ∧
      quoteOfPage "X" (envQ.text (st0.k + 4)) (envQ.text (st0.k + 5))
        (envQ.texts (st0.k + 6)) (envQ.texts (st0.k + 7)) (envQ.text (st0.k + 8))
        = .ok quoteX := by
  have h : quote "X" envQ st0 = (.ok quoteX, stX) := by rfl
  have h2 := c5_quote_value_semantics.2 "X" envQ st0 quoteX stX h
  exact ⟨h, h2.1, h2.2⟩

end Fidelipy
